import Mathlib

/-! # Shure receiver reporting: `reporting.go`

A shallow embedding of `GetEventType`, `GetEventInfo` and `Monitor` (package
`reporting`) together with the library calls they make, followed by the
properties proved about them.

Go strings are modelled as lists of characters (`Str`). The library calls that
are modelled here (`regexp` with the pattern `REP [\d]`, `strings.Contains`,
`strconv.Atoi`, `fmt.Sprintf`) only look for ASCII characters, so on well-formed
text the character view and Go's byte view agree.
Declarations of the repository that live outside `reporting.go` (the category
tokens of package `state`, the `FLAG` sentinel and the extractors of package
`event`), the functions and constants of the `events` library and
`strings.EqualFold` are collected in `Env` and stay parameters of every
definition.
-/

namespace Reporting

/-- Go `string`. -/
abbrev Str := List Char

/-! ## Library models -/

/-- Go `strings.Contains(s, substr)`: some suffix of `s` starts with `substr`. -/
def Contains : Str → Str → Bool
  | [], substr => substr.isEmpty
  | c :: cs, substr => List.isPrefixOf substr (c :: cs) || Contains cs substr

/-- The compiled pattern `REP [\d]` anchored at the head of the input: the four
characters `REP ` followed by one ASCII digit. -/
def reMatchAt : Str → Bool
  | 'R' :: 'E' :: 'P' :: ' ' :: d :: _ => d.isDigit
  | _ => false

/-- Go `re.FindString(data)` for `re = regexp.MustCompile("REP [\\d]")`: the text
of the leftmost match, or the empty string when there is none. -/
def FindString : Str → Str
  | [] => []
  | c :: cs => if reMatchAt (c :: cs) then List.take 5 (c :: cs) else FindString cs

/-- Scanner behind `ReplaceAllString`: `skip` counts the characters of the
current match that are still to be dropped. -/
def replaceAllGo : Nat → Str → Str
  | _, [] => []
  | skip + 1, _ :: cs => replaceAllGo skip cs
  | 0, c :: cs => if reMatchAt (c :: cs) then replaceAllGo 4 cs else c :: replaceAllGo 0 cs

/-- Go `re.ReplaceAllString(data, "")` for the same pattern: every match, found
left to right without overlap, is deleted. -/
def ReplaceAllString (data : Str) : Str := replaceAllGo 0 data

/-- Value of a run of ASCII digits read most significant first, starting from
the accumulator; `none` as soon as a character is not a digit. -/
def parseDigits : Nat → Str → Option Nat
  | acc, [] => some acc
  | acc, c :: cs => if c.isDigit then parseDigits (acc * 10 + (c.toNat - 48)) cs else none

/-- Go `strconv.Atoi(s)` on a target whose `int` has `intSize` bits: an optional
sign, then at least one ASCII digit and nothing else; the value has to fit the
signed range. `none` stands for a non-nil error. -/
def Atoi (intSize : Nat) (s : Str) : Option Int :=
  let body := match s with
    | '-' :: r => r
    | '+' :: r => r
    | _ => s
  if body.isEmpty then none
  else match parseDigits 0 body with
    | none => none
    | some n =>
      if s.head? = some '-' then
        if n ≤ 2 ^ (intSize - 1) then some (-(n : Int)) else none
      else
        if n < 2 ^ (intSize - 1) then some (n : Int) else none

/-- Go `%v` applied to an `int`: decimal digits, a leading `-` when negative, no
padding. -/
def formatInt : Int → Str
  | Int.ofNat n => Nat.toDigits 10 n
  | Int.negSucc n => '-' :: Nat.toDigits 10 (n + 1)

/-! ## Data model -/

/-- Library type `events.BasicRoomInfo`. -/
structure BasicRoomInfo where
  BuildingID : Str := []
  RoomID : Str := []
  deriving DecidableEq, Repr

/-- Library type `events.BasicDeviceInfo`. -/
structure BasicDeviceInfo where
  BuildingID : Str := []
  RoomID : Str := []
  DeviceID : Str := []
  deriving DecidableEq, Repr

/-- Library type `events.Event`, its textual fields; a field left out of a
literal takes Go's zero value. `reporting.go` itself only writes `TargetDevice`,
`Key`, `Value` and, through `AddToTags`, `EventTags`. -/
structure Event where
  GeneratingSystem : Str := []
  EventTags : List Str := []
  TargetDevice : BasicDeviceInfo := {}
  AffectedRoom : BasicRoomInfo := {}
  Key : Str := []
  Value : Str := []
  User : Str := []
  deriving DecidableEq, Repr

/-- Library method `(*Event).AddToTags(tags...)`: the tags are appended. -/
def Event.AddToTags (e : Event) (tags : List Str) : Event :=
  { e with EventTags := e.EventTags ++ tags }

/-- Library type `*nerr.E`, as built by `nerr.Create(message, type)`. -/
structure NErr where
  Message : Str
  ErrType : Str
  deriving DecidableEq, Repr

/-- The handler stored in an `eventhelper.Context`: one of the three extractor
types of package `event`. -/
inductive Category where
  | Interference
  | Power
  | Battery
  deriving DecidableEq, Repr

deriving instance DecidableEq for Except

/-- What `reporting.go` uses but does not declare. -/
structure Env where
  /-- Token `state.Interference.String()`. -/
  Interference : Str
  /-- Token `state.Power.String()`. -/
  Power : Str
  /-- Token `state.Battery.String()`. -/
  Battery : Str
  /-- Sentinel `eventhelper.FLAG`. -/
  FLAG : Str
  /-- Method `Context.FillEventInfo(data, &event)` of the context holding the
  given handler: the event after the call and the returned `*nerr.E`. -/
  FillEventInfo : Category → Str → Event → Event × Option NErr
  /-- Library function `events.GenerateBasicDeviceInfo`. -/
  GenerateBasicDeviceInfo : Str → BasicDeviceInfo
  /-- Library constant `events.DetailState`. -/
  DetailState : Str
  /-- Library constant `events.AutoGenerated`. -/
  AutoGenerated : Str
  /-- Library function `strings.EqualFold`. -/
  EqualFold : Str → Str → Bool
  /-- Constant `strconv.IntSize`, the width of `int` on the build target. -/
  intSize : Nat

/-! ## `reporting.go` -/

/-- Function `GetEventType` (lines 166-176). -/
def GetEventType (env : Env) (data : Str) : Except NErr Category :=
  if Contains data env.Interference then
    .ok Category.Interference
  else if Contains data env.Power then
    .ok Category.Power
  else if Contains data env.Battery then
    .ok Category.Battery
  else
    .error ⟨"Couldn't generate event type".toList, "invalid".toList⟩

/-- Function `GetEventInfo` (lines 102-163): the returned slice and the returned
error (`none` for `nil`). -/
def GetEventInfo (env : Env) (data roomID : Str) : List Event × Option NErr :=
  -- lines 105-112
  let channel := FindString data
  if channel.length = 0 then
    ([], none)
  else
    -- line 114: `fmt.Sprintf("%v-MIC%s", roomID, channel[len(channel)-1:])`
    let deviceName := roomID ++ "-MIC".toList ++ channel.drop (channel.length - 1)
    -- line 117
    let data := ReplaceAllString data
    -- lines 119-123
    let eventArray : List Event := []
    let event : Event := { TargetDevice := env.GenerateBasicDeviceInfo deviceName }
    -- lines 126-129
    match GetEventType env data with
    | .error _ => ([], none)
    | .ok E =>
      -- line 131: the call writes through `&event` and returns `err`
      let filled := env.FillEventInfo E data event
      let event := filled.1
      let err := filled.2
      -- lines 132-139
      if env.EqualFold event.Value env.FLAG || event.Key.length = 0 then
        ([], none)
      else if err.isSome then
        (eventArray ++ [event], err)
      else
        -- lines 141-162
        let eventArray :=
          if Contains event.Key "minutes".toList then
            match Atoi env.intSize event.Value with
            | some val =>
              let hours := Int.tdiv val 60
              let minutes := Int.tmod val 60
              let hoursMinuteEvent : Event :=
                { Key := "battery level (hours:minute remaining".toList
                  Value := formatInt hours ++ ":".toList ++ formatInt minutes
                  TargetDevice := env.GenerateBasicDeviceInfo deviceName }
              let hoursMinuteEvent :=
                hoursMinuteEvent.AddToTags [env.DetailState, env.AutoGenerated]
              eventArray ++ [hoursMinuteEvent]
            | none => eventArray
          else eventArray
        (eventArray ++ [event], none)

/-! ## Vocabulary of the statements -/

/-- The channel marker `REP d`. -/
def marker (d : Char) : Str := ['R', 'E', 'P', ' ', d]

/-- The message carries a channel marker: some `REP d` with `d` an ASCII digit
occurs in it. -/
def HasMarker (data : Str) : Prop := ∃ d : Char, d.isDigit = true ∧ marker d <:+: data

/-- The device name built at line 114 from the room and the last character of
the leftmost marker. -/
def deviceNameOf (data roomID : Str) : Str :=
  roomID ++ "-MIC".toList ++ (FindString data).drop ((FindString data).length - 1)

/-- The call of line 131: the extractor of handler `E` applied to the message
without its markers and to the event literal of lines 121-123. The first
component is the primary event, the second the extractor's error. -/
def extract (env : Env) (E : Category) (data roomID : Str) : Event × Option NErr :=
  env.FillEventInfo E (ReplaceAllString data)
    { TargetDevice := env.GenerateBasicDeviceInfo (deviceNameOf data roomID) }

/-- The filter of line 132 as a proposition: the value is the `FLAG` sentinel up
to letter case, or the key is empty. -/
def Suppressed (env : Env) (event : Event) : Prop :=
  env.EqualFold event.Value env.FLAG = true ∨ event.Key = []

/-- The literal of lines 147-155: the hours:minutes event derived from a minute
count `val` for the device `deviceName`. -/
def hoursMinuteEventOf (env : Env) (deviceName : Str) (val : Int) : Event :=
  { Key := "battery level (hours:minute remaining".toList
    Value := formatInt (Int.tdiv val 60) ++ ":".toList ++ formatInt (Int.tmod val 60)
    TargetDevice := env.GenerateBasicDeviceInfo deviceName
    EventTags := [env.DetailState, env.AutoGenerated] }

/-- Lines 132-162 as a function of what the extractor left behind: the primary
event and the extractor's error. `GetEventInfo_eq` shows that `GetEventInfo`
ends with exactly this computation. -/
def outcome (env : Env) (deviceName : Str) (p : Event × Option NErr) :
    List Event × Option NErr :=
  if env.EqualFold p.1.Value env.FLAG = true ∨ p.1.Key = [] then ([], none)
  else if p.2.isSome = true then ([p.1], p.2)
  else if Contains p.1.Key "minutes".toList = true then
    match Atoi env.intSize p.1.Value with
    | some val => ([hoursMinuteEventOf env deviceName val, p.1], none)
    | none => ([p.1], none)
  else ([p.1], none)

/-! ## Calls in sequence

`GetEventInfo` keeps no variable of its own between calls; the only code it runs
that could is the extractor. `GetEventInfoS` is `GetEventInfo` with that
possibility made explicit: the extractor reads and updates a state `σ` that is
threaded from one call to the next. -/

/-- Function `GetEventInfo` (lines 102-163) around an extractor `fill` that may
read and write a state of type `σ`; the field `FillEventInfo` of `env` is not
used. -/
def GetEventInfoS {σ : Type} (env : Env)
    (fill : Category → Str → Event → σ → (Event × Option NErr) × σ)
    (data roomID : Str) (s : σ) : (List Event × Option NErr) × σ :=
  let channel := FindString data
  if channel.length = 0 then
    (([], none), s)
  else
    let deviceName := roomID ++ "-MIC".toList ++ channel.drop (channel.length - 1)
    let data := ReplaceAllString data
    let event : Event := { TargetDevice := env.GenerateBasicDeviceInfo deviceName }
    match GetEventType env data with
    | .error _ => (([], none), s)
    | .ok E =>
      let filled := fill E data event s
      (outcome env deviceName filled.1, filled.2)

/-! ## The publishing loop of `Monitor` -/

/-- A call from `Monitor` into package `publishing`. -/
inductive Call where
  | ReportError (msg identity building room : Str)
  | PublishEvent (final : Bool) (event : Event) (building room : Str)
  deriving DecidableEq, Repr

/-- The `range` loop of lines 84-95, as the list of calls it makes in order.
`publish` answers a `PublishEvent` call from the state of the outside world `σ`
with the text of the returned error (`none` for nil) and the next state;
`systemID` is `os.Getenv("SYSTEM_ID")`. -/
def publishEvents {σ : Type} (publish : Event → σ → Option Str × σ)
    (systemID building room : Str) : List Event → σ → List Call × σ
  | [], s => ([], s)
  | event :: rest, s =>
    if event.TargetDevice.DeviceID = [] then
      publishEvents publish systemID building room rest s
    else
      let answer := publish event s
      let later := publishEvents publish systemID building room rest answer.2
      match answer.1 with
      | none => (Call.PublishEvent false event building room :: later.1, later.2)
      | some text =>
        (Call.PublishEvent false event building room ::
          Call.ReportError ("failed to publish event: ".toList ++ text) systemID building room ::
          later.1, later.2)

/-- The events handed to `PublishEvent`, in call order. -/
def publishedEvents : List Call → List Event
  | [] => []
  | Call.PublishEvent _ event _ _ :: rest => event :: publishedEvents rest
  | Call.ReportError _ _ _ _ :: rest => publishedEvents rest

/-! ## `Monitor`

`Monitor` talks to the device database, the network, the connection and package
`publishing`. Their answers are the fields of `World`, drawn from a state `σ` of
the outside world; what `Monitor` does is recorded as a list of `Action`s. The
function is cut at its two blocking calls into the phases of `Phase`, `step`
runs it from one of them to the next, and `Monitor` iterates `step` for a given
number of rounds. -/

/-- Library type `structs.Device`, the two fields `Monitor` reads. -/
structure Device where
  Name : Str
  Address : Str
  deriving DecidableEq, Repr

/-- The source behind a `bufio.Reader`: the bytes that still arrive on the
connection, and the text of the error it reports once they are used up. -/
structure Stream where
  pending : Str
  failure : Str
  deriving DecidableEq, Repr

/-- The bytes up to and including the first `delim`, and the bytes after it;
`none` when `delim` does not occur. -/
def readUntil (delim : Char) : Str → Option (Str × Str)
  | [] => none
  | c :: cs =>
    if c = delim then some ([c], cs)
    else match readUntil delim cs with
      | some (line, rest) => some (c :: line, rest)
      | none => none

/-- Go `(*bufio.Reader).ReadString(delim)`: the data up to and including the
first occurrence of the delimiter; when the source fails before a delimiter is
found, the data read so far together with the error. -/
def Stream.ReadString (r : Stream) (delim : Char) : (Str × Option Str) × Stream :=
  match readUntil delim r.pending with
  | some (line, rest) => ((line, none), { r with pending := rest })
  | none => ((r.pending, some r.failure), { r with pending := [] })

/-- The outside world as `Monitor` meets it; `κ` is the type of connections. An
error is represented by the text of its `Error()`. -/
structure World (σ κ : Type) where
  /-- Call `db.GetDB().GetDevicesByRoomAndRole(roomKey, role)`. -/
  GetDevicesByRoomAndRole : Str → Str → σ → Except Str (List Device) × σ
  /-- Call `net.DialTimeout(network, address, seconds)`. -/
  DialTimeout : Str → Str → Nat → σ → Except Str κ × σ
  /-- Call `ReadString(delim)` on the reader of a connection: data and error. -/
  ReadString : κ → Char → σ → (Str × Option Str) × σ
  /-- Call `publishing.PublishEvent(false, event, building, room)`. -/
  PublishEvent : Event → σ → Option Str × σ
  /-- Value of `os.Getenv("SYSTEM_ID")`. -/
  SYSTEM_ID : Str
  /-- Method `Error()` of `*nerr.E`. -/
  nerrText : NErr → Str

/-- What `Monitor` does to the outside world. -/
inductive Action (κ : Type) where
  | GetDevicesByRoomAndRole (roomKey role : Str)
  | Sleep (seconds : Nat)
  | DialTimeout (network address : Str) (seconds : Nat)
  | ReadString (connection : κ) (delim : Char)
  | publishing (call : Call)
  deriving DecidableEq, Repr

/-- Where `Monitor` stands between two steps. -/
inductive Phase (κ : Type) where
  /-- About to look the receivers up (line 33, or line 37 after a failure). -/
  | lookup
  /-- At the head of the read loop (line 70), connected to `device`. -/
  | reading (device : Device) (connection : κ)
  /-- After one of the `return`s of lines 42, 49 and 61. -/
  | returned
  deriving DecidableEq, Repr

/-- Lines 78-95: what an iteration of the read loop does with a message that
was read without error. -/
def handleMessage {σ κ : Type} (env : Env) (w : World σ κ) (building room data : Str)
    (s : σ) : List Call × σ :=
  -- line 78
  let result := GetEventInfo env data (building ++ "-".toList ++ room)
  -- lines 79-82
  let reported :=
    match result.2 with
    | some err =>
      [Call.ReportError ("problem reading receiver string: ".toList ++ w.nerrText err)
        w.SYSTEM_ID building room]
    | none => []
  -- lines 84-95
  let published := publishEvents w.PublishEvent w.SYSTEM_ID building room result.1 s
  (reported ++ published.1, published.2)

/-- One step of `Monitor`: from a phase and a state of the world to the actions
taken, the next phase and the next state of the world. -/
def step {σ κ : Type} (env : Env) (w : World σ κ) (building room : Str) :
    Phase κ → σ → (List (Action κ) × Phase κ) × σ
  | Phase.lookup, s =>
    let roomKey := building ++ "-".toList ++ room
    let asked := Action.GetDevicesByRoomAndRole roomKey "Receiver".toList
    match w.GetDevicesByRoomAndRole roomKey "Receiver".toList s with
    -- lines 34-38: log, sleep five seconds, look up again
    | (.error _, s1) => (([asked, Action.Sleep 5], Phase.lookup), s1)
    -- lines 40-43
    | (.ok [], s1) => (([asked], Phase.returned), s1)
    -- lines 52-66
    | (.ok [device], s1) =>
      let address := device.Address ++ ":2202".toList
      let dialed := Action.DialTimeout "tcp".toList address 3
      match w.DialTimeout "tcp".toList address 3 s1 with
      | (.error text, s2) =>
        (([asked, dialed, Action.publishing
            (Call.ReportError ("[error] Could not connect to device: ".toList ++ text)
              device.Name building room)], Phase.returned), s2)
      | (.ok connection, s2) => (([asked, dialed], Phase.reading device connection), s2)
    -- lines 45-50
    | (.ok (d1 :: d2 :: more), s1) =>
      (([asked, Action.publishing
          (Call.ReportError
            ("[error] detected ".toList ++ formatInt ((d1 :: d2 :: more).length : Nat) ++
              " recievers, expecting 1.".toList)
            w.SYSTEM_ID building room)], Phase.returned), s1)
  | Phase.reading device connection, s =>
    let read := Action.ReadString connection '>'
    match w.ReadString connection '>' s with
    -- lines 71-75
    | ((_, some text), s1) =>
      (([read, Action.publishing
          (Call.ReportError ("problem reading receiver string: ".toList ++ text)
            w.SYSTEM_ID building room)], Phase.reading device connection), s1)
    -- lines 76-95
    | ((data, none), s1) =>
      let handled := handleMessage env w building room data s1
      ((read :: handled.1.map Action.publishing, Phase.reading device connection), handled.2)
  | Phase.returned, s => (([], Phase.returned), s)

/-- The first `rounds` steps from a phase: all actions in order, the phase
reached and the state of the world. -/
def run {σ κ : Type} (env : Env) (w : World σ κ) (building room : Str) :
    Nat → Phase κ → σ → (List (Action κ) × Phase κ) × σ
  | 0, phase, s => (([], phase), s)
  | rounds + 1, phase, s =>
    let first := step env w building room phase s
    let later := run env w building room rounds first.1.2 first.2
    ((first.1.1 ++ later.1.1, later.1.2), later.2)

/-- Function `Monitor` (lines 27-99), run for `rounds` steps from its entry. -/
def Monitor {σ κ : Type} (env : Env) (w : World σ κ) (building room : Str) (rounds : Nat)
    (s : σ) : (List (Action κ) × Phase κ) × σ :=
  run env w building room rounds Phase.lookup s

/-- The calls into package `publishing` among the actions, in order. -/
def callsOf {κ : Type} : List (Action κ) → List Call
  | [] => []
  | Action.publishing call :: rest => call :: callsOf rest
  | _ :: rest => callsOf rest

/-- The `ReportError` calls among the calls, in order. -/
def reportedErrors : List Call → List Call
  | [] => []
  | Call.ReportError msg identity building room :: rest =>
    Call.ReportError msg identity building room :: reportedErrors rest
  | Call.PublishEvent _ _ _ _ :: rest => reportedErrors rest

/-- The number of dial attempts among the actions. -/
def dialCount {κ : Type} : List (Action κ) → Nat
  | [] => 0
  | Action.DialTimeout _ _ _ :: rest => dialCount rest + 1
  | _ :: rest => dialCount rest

/-- The number of reads among the actions. -/
def readCount {κ : Type} : List (Action κ) → Nat
  | [] => 0
  | Action.ReadString _ _ :: rest => readCount rest + 1
  | _ :: rest => readCount rest

/-- The lookup fails `k` times in a row from state `s` and leaves state `t`. -/
inductive LookupFails {σ κ : Type} (w : World σ κ) (roomKey : Str) : Nat → σ → σ → Prop where
  | zero (s : σ) : LookupFails w roomKey 0 s s
  | succ (k : Nat) (s s1 t : σ) (text : Str)
      (hfail : w.GetDevicesByRoomAndRole roomKey "Receiver".toList s = (.error text, s1))
      (hrest : LookupFails w roomKey k s1 t) : LookupFails w roomKey (k + 1) s t

/-! ## Marker removal and integer syntax, stated on their own -/

/-- Deleting the channel markers, stated without the scanner: `Stripped data out`
holds when `data` is cut from the left into texts free of markers, separated by
markers `REP d`, and `out` is these texts put together without the markers. -/
inductive Stripped : Str → Str → Prop where
  | done (text : Str) (hfree : ¬ HasMarker text) : Stripped text text
  | cut (text : Str) (d : Char) (rest out : Str) (hfree : ¬ HasMarker text)
      (hd : d.isDigit = true) (hrest : Stripped rest out) :
      Stripped (text ++ marker d ++ rest) (text ++ out)

/-- The number written by a run of decimal digits, most significant first. -/
def decimalValue (body : Str) : Nat :=
  Nat.ofDigits 10 ((body.map fun c => c.toNat - 48).reverse)

/-- The text `v` is a base-10 integer with an optional sign that fits a signed
integer of `intSize` bits, and `n` is the number it writes: `v` is a non-empty
run of ASCII digits, possibly after one `+` or one `-`. -/
def ParsesAsInt (intSize : Nat) (v : Str) (n : Int) : Prop :=
  ∃ body : Str, body ≠ [] ∧ (∀ c ∈ body, c.isDigit = true) ∧
    (((v = body ∨ v = '+' :: body) ∧ n = ((decimalValue body : Nat) : Int) ∧
        decimalValue body < 2 ^ (intSize - 1)) ∨
      (v = '-' :: body ∧ n = -((decimalValue body : Nat) : Int) ∧
        decimalValue body ≤ 2 ^ (intSize - 1)))

/-! ## Sample instances of the parameters

The values below are illustrations used to evaluate the definitions on concrete
inputs; no statement with a universally quantified `Env` depends on them. -/

/-- ASCII case folding, the first loop of `strings.EqualFold`. -/
def asciiEqualFold : Str → Str → Bool
  | [], [] => true
  | a :: s, b :: t =>
    (a == b || (a.isUpper && b.toNat == a.toNat + 32) || (b.isUpper && a.toNat == b.toNat + 32))
      && asciiEqualFold s t
  | _, _ => false

/-- An extractor that ignores the message: it writes the given key and value on
the event and returns the given error. -/
def stubFill (key value : Str) (err : Option NErr) :
    Category → Str → Event → Event × Option NErr :=
  fun _ _ event => ({ event with Key := key, Value := value }, err)

/-- A sample environment around a given extractor. -/
def sampleEnv (fill : Category → Str → Event → Event × Option NErr) : Env :=
  { Interference := "RF_INT_DET".toList
    Power := "TX_TYPE".toList
    Battery := "BATT".toList
    FLAG := "ignore".toList
    FillEventInfo := fill
    GenerateBasicDeviceInfo := fun deviceID => { DeviceID := deviceID }
    DetailState := "detail-state".toList
    AutoGenerated := "auto-generated".toList
    EqualFold := asciiEqualFold
    intSize := 64 }

/-- An extractor with a call counter as its state: it numbers its calls but
fills the event from the message alone (the key is fixed, the value is the
message). -/
def countingFill : Category → Str → Event → Nat → (Event × Option NErr) × Nat :=
  fun _ data event calls => (({ event with Key := "level".toList, Value := data }, none), calls + 1)

/-- A publisher that accepts every event; its state counts the calls. -/
def acceptAll : Event → Nat → Option Str × Nat :=
  fun _ calls => (none, calls + 1)

/-- The state of the sample world: the answers the device database still has
to give, and the stream behind the connection. -/
structure Script where
  lookups : List (Except Str (List Device))
  wire : Stream
  deriving DecidableEq

/-- A sample world: the database answers from the script, every dial succeeds
with connection `0`, the reader reads from the scripted stream and every event
is accepted by the publisher. -/
def sampleWorld : World Script Nat :=
  { GetDevicesByRoomAndRole := fun _ _ s =>
      match s.lookups with
      | [] => (.error "no answer".toList, s)
      | answer :: rest => (answer, { s with lookups := rest })
    DialTimeout := fun _ _ _ s => (.ok 0, s)
    ReadString := fun _ delim s =>
      ((s.wire.ReadString delim).1, { s with wire := (s.wire.ReadString delim).2 })
    PublishEvent := fun _ s => (none, s)
    SYSTEM_ID := "SYS".toList
    nerrText := fun err => err.Message }

/-- An extractor that keeps a record of the messages it is given. -/
def recordingFill : Category → Str → Event → List Str → (Event × Option NErr) × List Str :=
  fun _ data event seen =>
    (({ event with Key := "level".toList, Value := "3".toList }, none), seen ++ [data])

/-! ## Auxiliary facts -/

theorem Contains_iff_occurs (s substr : Str) : Contains s substr = true ↔ substr <:+: s := by
  induction s with
  | nil => cases substr <;> simp [Contains]
  | cons c cs ih =>
    simp only [Contains, Bool.or_eq_true, ih, List.infix_cons_iff, List.isPrefixOf_iff_prefix]

theorem Contains_eq_false_iff (s substr : Str) : Contains s substr = false ↔ ¬ substr <:+: s := by
  rw [← Contains_iff_occurs]; simp

theorem reMatchAt_iff (s : Str) :
    reMatchAt s = true ↔ ∃ d : Char, d.isDigit = true ∧ marker d <+: s := by
  constructor
  · intro h
    unfold reMatchAt at h
    split at h
    · next d rest => exact ⟨d, h, rest, rfl⟩
    · simp at h
  · rintro ⟨d, hd, rest, rfl⟩
    simpa [marker, reMatchAt] using hd

theorem FindString_eq_nil_iff (data : Str) : FindString data = [] ↔ ¬ HasMarker data := by
  induction data with
  | nil =>
    simp [FindString, HasMarker, marker]
  | cons c cs ih =>
    unfold FindString
    by_cases hm : reMatchAt (c :: cs) = true
    · rw [if_pos hm]
      constructor
      · intro h; simp at h
      · intro h
        exfalso; apply h
        obtain ⟨d, hd, hp⟩ := (reMatchAt_iff _).1 hm
        exact ⟨d, hd, hp.isInfix⟩
    · rw [if_neg hm, ih]
      simp only [HasMarker, List.infix_cons_iff]
      constructor
      · rintro h ⟨d, hd, hp | hi⟩
        · exact hm ((reMatchAt_iff _).2 ⟨d, hd, hp⟩)
        · exact h ⟨d, hd, hi⟩
      · rintro h ⟨d, hd, hi⟩
        exact h ⟨d, hd, Or.inr hi⟩

theorem GetEventInfo_eq (env : Env) (data roomID : Str) :
    GetEventInfo env data roomID =
      if FindString data = [] then ([], none)
      else match GetEventType env (ReplaceAllString data) with
        | .error _ => ([], none)
        | .ok E => outcome env (deviceNameOf data roomID) (extract env E data roomID) := by
  unfold GetEventInfo
  by_cases h : FindString data = []
  · simp [h]
  · have hlen : ¬ (FindString data).length = 0 := by
      simpa [List.length_eq_zero] using h
    rw [if_neg hlen, if_neg h]
    cases hc : GetEventType env (ReplaceAllString data) with
    | error e => simp only [hc]
    | ok E =>
      simp only [hc, outcome, extract, deviceNameOf, hoursMinuteEventOf, Event.AddToTags]
      generalize env.FillEventInfo E _ _ = p
      by_cases h1 : env.EqualFold p.1.Value env.FLAG = true
      · simp [h1]
      · by_cases h2 : p.1.Key = []
        · simp [h2]
        · have h2l : ¬ p.1.Key.length = 0 := by simpa [List.length_eq_zero] using h2
          simp only [h1, h2, h2l, decide_False, Bool.or_false, or_self, if_false, Bool.false_eq_true]
          by_cases h3 : p.2.isSome = true
          · simp [h3]
          · simp only [h3, if_false, Bool.false_eq_true]
            split_ifs with h4
            · cases Atoi env.intSize p.1.Value <;> simp
            · simp

theorem outcome_of_suppressed (env : Env) (deviceName : Str) (p : Event × Option NErr)
    (hs : Suppressed env p.1) : outcome env deviceName p = ([], none) := by
  unfold outcome
  exact if_pos hs

theorem outcome_of_not_suppressed (env : Env) (deviceName : Str) (p : Event × Option NErr)
    (hs : ¬ Suppressed env p.1) :
    outcome env deviceName p =
      if p.2.isSome = true then ([p.1], p.2)
      else if Contains p.1.Key "minutes".toList = true then
        match Atoi env.intSize p.1.Value with
        | some val => ([hoursMinuteEventOf env deviceName val, p.1], none)
        | none => ([p.1], none)
      else ([p.1], none) := by
  unfold outcome
  exact if_neg hs

theorem formatInt_eq_toString (m : Int) : formatInt m = (toString m).toList := by
  cases m with
  | ofNat n =>
    show Nat.toDigits 10 n = (Nat.repr n).toList
    simp only [Nat.repr, String.toList]
    rfl
  | negSucc n =>
    show '-' :: Nat.toDigits 10 (n + 1) = ("-" ++ Nat.repr (Nat.succ n)).toList
    simp only [Nat.repr, String.toList, String.data_append]
    rfl

theorem hoursMinuteEventOf_Value (env : Env) (deviceName : Str) (n : Int) :
    (hoursMinuteEventOf env deviceName n).Value =
      (toString (Int.tdiv n 60) ++ ":" ++ toString (Int.tmod n 60)).toList := by
  simp [hoursMinuteEventOf, formatInt_eq_toString]

theorem publishedEvents_publishEvents {σ : Type} (publish : Event → σ → Option Str × σ)
    (systemID building room : Str) (events : List Event) (s : σ) :
    publishedEvents (publishEvents publish systemID building room events s).1 =
      events.filter (fun event => decide (event.TargetDevice.DeviceID ≠ [])) := by
  induction events generalizing s with
  | nil => rfl
  | cons event rest ih =>
    unfold publishEvents
    by_cases h : event.TargetDevice.DeviceID = []
    · rw [if_pos h, ih]
      simp [h]
    · rw [if_neg h]
      have hf : List.filter (fun event => decide (event.TargetDevice.DeviceID ≠ [])) (event :: rest)
          = event :: List.filter (fun event => decide (event.TargetDevice.DeviceID ≠ [])) rest := by
        simp [h]
      rw [hf]
      dsimp only
      cases hp : (publish event s).1 <;> simp [publishedEvents, ih]

theorem outcome_pair (env : Env) (deviceName : Str) (p : Event × Option NErr) (a b : Event)
    (h : (outcome env deviceName p).1 = [a, b]) :
    b = p.1 ∧ p.2 = none ∧ ¬ Suppressed env p.1 ∧ "minutes".toList <:+: p.1.Key ∧
      ∃ n, Atoi env.intSize p.1.Value = some n ∧ a = hoursMinuteEventOf env deviceName n := by
  by_cases hs : Suppressed env p.1
  · rw [outcome_of_suppressed env _ p hs] at h
    simp at h
  · rw [outcome_of_not_suppressed env _ p hs] at h
    split_ifs at h with h1 h2
    · simp at h
    · cases hv : Atoi env.intSize p.1.Value with
      | none => rw [hv] at h; simp at h
      | some n =>
        rw [hv] at h
        simp only [List.cons.injEq, and_true] at h
        refine ⟨h.2.symm, ?_, hs, (Contains_iff_occurs _ _).1 h2, n, rfl, h.1.symm⟩
        cases hp : p.2 with
        | none => rfl
        | some e => simp [hp] at h1
    · simp at h

theorem not_HasMarker_of_cons {c : Char} {cs : Str} (h : ¬ HasMarker (c :: cs)) :
    ¬ HasMarker cs := by
  rintro ⟨d, hd, hi⟩
  exact h ⟨d, hd, List.infix_cons hi⟩

theorem reMatchAt_before_marker (pre post : Str) (c d : Char)
    (hpre : ¬ HasMarker (c :: pre)) :
    reMatchAt (c :: pre ++ marker d ++ post) = false := by
  rcases pre with _ | ⟨a1, _ | ⟨a2, _ | ⟨a3, _ | ⟨a4, rest⟩⟩⟩⟩
  · rw [Bool.eq_false_iff]
    intro h
    simp [reMatchAt, marker] at h
  · rw [Bool.eq_false_iff]
    intro h
    simp [reMatchAt, marker] at h
  · rw [Bool.eq_false_iff]
    intro h
    simp [reMatchAt, marker] at h
  · rw [Bool.eq_false_iff]
    intro h
    simp [reMatchAt, marker] at h
    split at h
    · next heq =>
      simp at heq
      obtain ⟨-, -, -, -, hR, -⟩ := heq
      subst hR
      simp [Char.isDigit] at h
    · simp at h
  · rw [Bool.eq_false_iff]
    intro h
    apply hpre
    obtain ⟨d', hd', hp⟩ := (reMatchAt_iff _).1 h
    refine ⟨d', hd', ?_⟩
    have hp2 : marker d' <+: c :: a1 :: a2 :: a3 :: a4 :: (rest ++ marker d ++ post) := by
      simpa using hp
    have hp3 : marker d' <+: c :: a1 :: a2 :: a3 :: a4 :: rest := by
      obtain ⟨t, ht⟩ := hp2
      simp [marker] at ht
      obtain ⟨h1, h2, h3, h4, h5, -⟩ := ht
      subst h1 h2 h3 h4 h5
      exact ⟨rest, rfl⟩
    exact hp3.isInfix

theorem FindString_leftmost (pre post : Str) (d : Char) (hd : d.isDigit = true)
    (hpre : ¬ HasMarker pre) : FindString (pre ++ marker d ++ post) = marker d := by
  induction pre with
  | nil => simp [FindString, marker, reMatchAt, hd]
  | cons c pre ih =>
    have hno := reMatchAt_before_marker pre post c d hpre
    have hstep : FindString (c :: pre ++ marker d ++ post) =
        FindString (pre ++ marker d ++ post) := by
      show FindString (c :: (pre ++ marker d ++ post)) = _
      rw [FindString]
      have hno2 : reMatchAt (c :: (pre ++ marker d ++ post)) = false := hno
      rw [hno2]
      simp
    rw [hstep]
    exact ih (not_HasMarker_of_cons hpre)

theorem outcome_mem (env : Env) (deviceName : Str) (p : Event × Option NErr) (event : Event)
    (h : event ∈ (outcome env deviceName p).1) :
    event = p.1 ∨ ∃ n, event = hoursMinuteEventOf env deviceName n := by
  unfold outcome at h
  split_ifs at h
  · simp at h
  · simp at h; exact Or.inl h
  · split at h
    · next n _ =>
      simp at h
      rcases h with h | h
      · exact Or.inr ⟨n, h⟩
      · exact Or.inl h
    · simp at h; exact Or.inl h
  · simp at h; exact Or.inl h

theorem GetEventInfoS_eq {σ : Type} (env : Env)
    (fill : Category → Str → Event → σ → (Event × Option NErr) × σ)
    (data roomID : Str) (s : σ) :
    (GetEventInfoS env fill data roomID s).1 =
      GetEventInfo { env with FillEventInfo := fun E msg event => (fill E msg event s).1 }
        data roomID := by
  rw [GetEventInfo_eq]
  unfold GetEventInfoS
  by_cases h : FindString data = []
  · simp [h]
  · have hlen : ¬ (FindString data).length = 0 := by
      simpa [List.length_eq_zero] using h
    rw [if_neg hlen, if_neg h]
    have hty : GetEventType { env with FillEventInfo := fun E msg event => (fill E msg event s).1 }
        (ReplaceAllString data) = GetEventType env (ReplaceAllString data) := rfl
    rw [hty]
    cases hc : GetEventType env (ReplaceAllString data) with
    | error e => simp only [hc]
    | ok E =>
      simp only [hc]
      rfl

theorem FindString_ne_nil_of_HasMarker {data : Str} (h : HasMarker data) : FindString data ≠ [] :=
  fun h0 => (FindString_eq_nil_iff data).1 h0 h

theorem GetEventInfo_of_classified (env : Env) (data roomID : Str) (E : Category)
    (hm : HasMarker data) (hc : GetEventType env (ReplaceAllString data) = .ok E) :
    GetEventInfo env data roomID =
      outcome env (deviceNameOf data roomID) (extract env E data roomID) := by
  rw [GetEventInfo_eq, if_neg (FindString_ne_nil_of_HasMarker hm), hc]

theorem callsOf_append {κ : Type} (a b : List (Action κ)) :
    callsOf (a ++ b) = callsOf a ++ callsOf b := by
  induction a with
  | nil => rfl
  | cons x rest ih => cases x <;> simp [callsOf, ih]

theorem dialCount_append {κ : Type} (a b : List (Action κ)) :
    dialCount (a ++ b) = dialCount a + dialCount b := by
  induction a with
  | nil => simp [dialCount]
  | cons x rest ih =>
    cases x <;> simp [dialCount, ih]
    omega

theorem readCount_append {κ : Type} (a b : List (Action κ)) :
    readCount (a ++ b) = readCount a + readCount b := by
  induction a with
  | nil => simp [readCount]
  | cons x rest ih =>
    cases x <;> simp [readCount, ih]
    omega

theorem callsOf_map_publishing {κ : Type} (calls : List Call) :
    callsOf (calls.map (Action.publishing : Call → Action κ)) = calls := by
  induction calls with
  | nil => rfl
  | cons c rest ih => simp [callsOf, ih]

theorem dialCount_map_publishing {κ : Type} (calls : List Call) :
    dialCount (calls.map (Action.publishing : Call → Action κ)) = 0 := by
  induction calls with
  | nil => rfl
  | cons c rest ih => simp [dialCount, ih]

theorem run_returned {σ κ : Type} (env : Env) (w : World σ κ) (building room : Str)
    (rounds : Nat) (s : σ) :
    run env w building room rounds Phase.returned s = (([], Phase.returned), s) := by
  induction rounds with
  | zero => rfl
  | succ n ih => simp [run, step, ih]

theorem run_lookup_fails {σ κ : Type} (env : Env) (w : World σ κ) (building room : Str)
    (k : Nat) (s t : σ)
    (hfails : LookupFails w (building ++ "-".toList ++ room) k s t) (rounds : Nat) :
    ∃ before : List (Action κ),
      callsOf before = [] ∧ dialCount before = 0 ∧ readCount before = 0 ∧
      run env w building room (k + rounds) Phase.lookup s =
        ((before ++ (run env w building room rounds Phase.lookup t).1.1,
          (run env w building room rounds Phase.lookup t).1.2),
          (run env w building room rounds Phase.lookup t).2) := by
  induction hfails with
  | zero s => exact ⟨[], rfl, rfl, rfl, by simp⟩
  | succ k s s1 t text hfail hrest ih =>
    obtain ⟨before, h1, h2, h3, h4⟩ := ih
    refine ⟨[Action.GetDevicesByRoomAndRole (building ++ "-".toList ++ room) "Receiver".toList,
      Action.Sleep 5] ++ before, ?_, ?_, ?_, ?_⟩
    · simp [callsOf, h1]
    · simp [dialCount, h2]
    · simp [readCount, h3]
    · have hk : k + 1 + rounds = (k + rounds) + 1 := by omega
      rw [hk, run]
      simp only [step, hfail, h4]
      simp

theorem readUntil_of_mem (delim : Char) (l : Str) (h : delim ∈ l) :
    ∃ body rest, l = body ++ delim :: rest ∧ delim ∉ body ∧
      readUntil delim l = some (body ++ [delim], rest) := by
  induction l with
  | nil => simp at h
  | cons c cs ih =>
    by_cases hc : c = delim
    · subst hc
      exact ⟨[], cs, rfl, by simp, by simp [readUntil]⟩
    · have hmem : delim ∈ cs := by
        rcases List.mem_cons.1 h with h1 | h1
        · exact absurd h1.symm hc
        · exact h1
      obtain ⟨body, rest, h1, h2, h3⟩ := ih hmem
      refine ⟨c :: body, rest, by rw [h1]; rfl, ?_, ?_⟩
      · simp only [List.mem_cons, not_or]
        exact ⟨fun h => hc h.symm, h2⟩
      · simp [readUntil, hc, h3]

theorem step_reading_ok {σ κ : Type} (env : Env) (w : World σ κ) (building room : Str)
    (device : Device) (connection : κ) (s s1 : σ) (data : Str)
    (hread : w.ReadString connection '>' s = ((data, none), s1)) :
    step env w building room (Phase.reading device connection) s =
      ((Action.ReadString connection '>' ::
          (handleMessage env w building room data s1).1.map Action.publishing,
        Phase.reading device connection), (handleMessage env w building room data s1).2) := by
  simp only [step, hread]

theorem step_reading_error {σ κ : Type} (env : Env) (w : World σ κ) (building room : Str)
    (device : Device) (connection : κ) (s s1 : σ) (data text : Str)
    (hread : w.ReadString connection '>' s = ((data, some text), s1)) :
    step env w building room (Phase.reading device connection) s =
      (([Action.ReadString connection '>',
          Action.publishing (Call.ReportError
            ("problem reading receiver string: ".toList ++ text) w.SYSTEM_ID building room)],
        Phase.reading device connection), s1) := by
  simp only [step, hread]

theorem step_reading_phase {σ κ : Type} (env : Env) (w : World σ κ) (building room : Str)
    (device : Device) (connection : κ) (s : σ) :
    (step env w building room (Phase.reading device connection) s).1.2 =
        Phase.reading device connection ∧
      dialCount (step env w building room (Phase.reading device connection) s).1.1 = 0 := by
  rcases hread : w.ReadString connection '>' s with ⟨⟨data, err⟩, s1⟩
  cases err with
  | none =>
    rw [step_reading_ok env w building room device connection s s1 data hread]
    exact ⟨rfl, by simp [dialCount, dialCount_map_publishing]⟩
  | some text =>
    rw [step_reading_error env w building room device connection s s1 data text hread]
    exact ⟨rfl, by simp [dialCount]⟩

theorem reMatchAt_eq_false_of_free {text : Str} (hfree : ¬ HasMarker text) :
    reMatchAt text = false := by
  rw [Bool.eq_false_iff]
  intro h
  obtain ⟨d, hd, hp⟩ := (reMatchAt_iff _).1 h
  exact hfree ⟨d, hd, hp.isInfix⟩

theorem replaceAllGo_of_free (text : Str) (hfree : ¬ HasMarker text) :
    replaceAllGo 0 text = text := by
  induction text with
  | nil => rfl
  | cons c cs ih =>
    rw [replaceAllGo, reMatchAt_eq_false_of_free hfree]
    simp [ih (not_HasMarker_of_cons hfree)]

theorem replaceAllGo_marker (d : Char) (hd : d.isDigit = true) (rest : Str) :
    replaceAllGo 0 (marker d ++ rest) = replaceAllGo 0 rest := by
  simp [marker, replaceAllGo, reMatchAt, hd]

theorem replaceAllGo_before_marker (text : Str) (d : Char) (hd : d.isDigit = true) (rest : Str)
    (hfree : ¬ HasMarker text) :
    replaceAllGo 0 (text ++ marker d ++ rest) = text ++ replaceAllGo 0 rest := by
  induction text with
  | nil => simpa using replaceAllGo_marker d hd rest
  | cons c cs ih =>
    have hno := reMatchAt_before_marker cs rest c d hfree
    have hno2 : reMatchAt (c :: (cs ++ marker d ++ rest)) = false := hno
    show replaceAllGo 0 (c :: (cs ++ marker d ++ rest)) = c :: (cs ++ replaceAllGo 0 rest)
    rw [replaceAllGo, hno2, ih (not_HasMarker_of_cons hfree)]
    simp

theorem Stripped_eq_ReplaceAllString {data out : Str} (h : Stripped data out) :
    out = ReplaceAllString data := by
  unfold ReplaceAllString
  induction h with
  | done text hfree => exact (replaceAllGo_of_free text hfree).symm
  | cut text d rest out hfree hd _ ih =>
    rw [replaceAllGo_before_marker text d hd rest hfree, ← ih]

theorem leftmost_marker_of_HasMarker (data : Str) (h : HasMarker data) :
    ∃ (text : Str) (d : Char) (rest : Str),
      data = text ++ marker d ++ rest ∧ d.isDigit = true ∧ ¬ HasMarker text := by
  induction data with
  | nil =>
    obtain ⟨d, _, hi⟩ := h
    simp [marker] at hi
  | cons c cs ih =>
    by_cases hm : reMatchAt (c :: cs) = true
    · obtain ⟨d, hd, rest, hrest⟩ := (reMatchAt_iff _).1 hm
      exact ⟨[], d, rest, by simpa using hrest.symm, hd, by
        rintro ⟨d', _, hi⟩
        simp [marker] at hi⟩
    · have hcs : HasMarker cs := by
        obtain ⟨d, hd, hi⟩ := h
        rcases List.infix_cons_iff.1 hi with hp | hi2
        · exact absurd ((reMatchAt_iff _).2 ⟨d, hd, hp⟩) hm
        · exact ⟨d, hd, hi2⟩
      obtain ⟨text, d, rest, hdata, hd, hfree⟩ := ih hcs
      refine ⟨c :: text, d, rest, by rw [hdata]; simp, hd, ?_⟩
      rintro ⟨d', hd', hi⟩
      rcases List.infix_cons_iff.1 hi with hp | hi2
      · apply hm
        apply (reMatchAt_iff _).2
        refine ⟨d', hd', ?_⟩
        obtain ⟨t, ht⟩ := hp
        exact ⟨t ++ (marker d ++ rest), by rw [hdata, ← List.append_assoc, ht]; simp⟩
      · exact hfree ⟨d', hd', hi2⟩

theorem Stripped_ReplaceAllString (data : Str) : Stripped data (ReplaceAllString data) := by
  have key : ∀ (n : Nat) (data : Str), data.length ≤ n → ∃ out, Stripped data out := by
    intro n
    induction n with
    | zero =>
      intro data hlen
      have : data = [] := List.length_eq_zero.1 (Nat.le_zero.1 hlen)
      subst this
      exact ⟨[], Stripped.done [] (by
        rintro ⟨d, _, hi⟩
        simp [marker] at hi)⟩
    | succ n ih =>
      intro data hlen
      by_cases hm : HasMarker data
      · obtain ⟨text, d, rest, hdata, hd, hfree⟩ := leftmost_marker_of_HasMarker data hm
        have hrest : rest.length ≤ n := by
          have := congrArg List.length hdata
          simp [marker] at this
          omega
        obtain ⟨out, hout⟩ := ih rest hrest
        exact ⟨text ++ out, hdata ▸ Stripped.cut text d rest out hfree hd hout⟩
      · exact ⟨data, Stripped.done data hm⟩
  obtain ⟨out, hout⟩ := key data.length data (Nat.le_refl _)
  have := Stripped_eq_ReplaceAllString hout
  rw [← this]
  exact hout

theorem decimalValue_cons (c : Char) (cs : Str) :
    decimalValue (c :: cs) = decimalValue cs + 10 ^ cs.length * (c.toNat - 48) := by
  unfold decimalValue
  rw [List.map_cons, List.reverse_cons, Nat.ofDigits_append, Nat.ofDigits_singleton,
    List.length_reverse, List.length_map]

theorem parseDigits_eq_some_iff (acc : Nat) (body : Str) (m : Nat) :
    parseDigits acc body = some m ↔
      (∀ c ∈ body, c.isDigit = true) ∧ m = acc * 10 ^ body.length + decimalValue body := by
  induction body generalizing acc with
  | nil =>
    have h0 : decimalValue [] = 0 := rfl
    rw [parseDigits, h0]
    constructor
    · intro h
      exact ⟨by simp, by simpa using (Option.some.inj h).symm⟩
    · rintro ⟨_, h⟩
      rw [h]
      simp
  | cons c cs ih =>
    by_cases hc : c.isDigit = true
    · rw [parseDigits, if_pos hc, ih, decimalValue_cons]
      simp only [List.mem_cons, forall_eq_or_imp, hc, true_and, List.length_cons]
      constructor
      · rintro ⟨h1, h2⟩
        exact ⟨h1, by rw [h2]; ring⟩
      · rintro ⟨h1, h2⟩
        exact ⟨h1, by rw [h2]; ring⟩
    · rw [parseDigits, if_neg hc]
      simp [hc]

theorem parseDigits_zero_eq_some_iff (body : Str) (m : Nat) :
    parseDigits 0 body = some m ↔ (∀ c ∈ body, c.isDigit = true) ∧ m = decimalValue body := by
  rw [parseDigits_eq_some_iff]
  simp

theorem Atoi_minus_eq_some_iff (intSize : Nat) (r : Str) (n : Int) :
    Atoi intSize ('-' :: r) = some n ↔
      r ≠ [] ∧ (∀ c ∈ r, c.isDigit = true) ∧ n = -((decimalValue r : Nat) : Int) ∧
        decimalValue r ≤ 2 ^ (intSize - 1) := by
  have hA : Atoi intSize ('-' :: r) =
      if r.isEmpty = true then none else
        match parseDigits 0 r with
        | none => none
        | some m => if m ≤ 2 ^ (intSize - 1) then some (-(m : Int)) else none := by
    simp [Atoi]
  rw [hA]
  by_cases he : r = []
  · simp [he]
  · have he2 : ¬ r.isEmpty = true := by simpa using he
    rw [if_neg he2]
    cases hp : parseDigits 0 r with
    | none =>
      have hnot : ¬ ∀ c ∈ r, c.isDigit = true := fun hd => by
        have := (parseDigits_zero_eq_some_iff r _).2 ⟨hd, rfl⟩
        rw [hp] at this
        exact Option.noConfusion this
      constructor
      · intro h
        exact Option.noConfusion h
      · rintro ⟨_, hd, _⟩
        exact absurd hd hnot
    | some m =>
      obtain ⟨hd, hm⟩ := (parseDigits_zero_eq_some_iff r m).1 hp
      subst hm
      simp only
      split_ifs with hle
      · simp only [Option.some.injEq]
        exact ⟨fun h => ⟨he, hd, h.symm, hle⟩, fun h => h.2.2.1.symm⟩
      · simp only [false_iff]
        rintro ⟨_, _, _, hle2⟩
        exact hle hle2

theorem Atoi_plus_eq_some_iff (intSize : Nat) (r : Str) (n : Int) :
    Atoi intSize ('+' :: r) = some n ↔
      r ≠ [] ∧ (∀ c ∈ r, c.isDigit = true) ∧ n = ((decimalValue r : Nat) : Int) ∧
        decimalValue r < 2 ^ (intSize - 1) := by
  have hA : Atoi intSize ('+' :: r) =
      if r.isEmpty = true then none else
        match parseDigits 0 r with
        | none => none
        | some m => if m < 2 ^ (intSize - 1) then some (m : Int) else none := by
    simp [Atoi]
  rw [hA]
  by_cases he : r = []
  · simp [he]
  · have he2 : ¬ r.isEmpty = true := by simpa using he
    rw [if_neg he2]
    cases hp : parseDigits 0 r with
    | none =>
      have hnot : ¬ ∀ c ∈ r, c.isDigit = true := fun hd => by
        have := (parseDigits_zero_eq_some_iff r _).2 ⟨hd, rfl⟩
        rw [hp] at this
        exact Option.noConfusion this
      constructor
      · intro h
        exact Option.noConfusion h
      · rintro ⟨_, hd, _⟩
        exact absurd hd hnot
    | some m =>
      obtain ⟨hd, hm⟩ := (parseDigits_zero_eq_some_iff r m).1 hp
      subst hm
      simp only
      split_ifs with hlt
      · simp only [Option.some.injEq]
        exact ⟨fun h => ⟨he, hd, h.symm, hlt⟩, fun h => h.2.2.1.symm⟩
      · simp only [false_iff]
        rintro ⟨_, _, _, hlt2⟩
        exact hlt hlt2

theorem Atoi_digits_eq_some_iff (intSize : Nat) (v : Str) (n : Int)
    (hd : ∀ c ∈ v, c.isDigit = true) :
    Atoi intSize v = some n ↔
      v ≠ [] ∧ n = ((decimalValue v : Nat) : Int) ∧ decimalValue v < 2 ^ (intSize - 1) := by
  cases v with
  | nil => simp [Atoi]
  | cons c cs =>
    have hc : c.isDigit = true := hd c (by simp)
    have hcm : c ≠ '-' := by rintro rfl; exact absurd hc (by decide)
    have hcp : c ≠ '+' := by rintro rfl; exact absurd hc (by decide)
    have hp := (parseDigits_zero_eq_some_iff (c :: cs) _).2 ⟨hd, rfl⟩
    have hA : Atoi intSize (c :: cs) =
        if decimalValue (c :: cs) < 2 ^ (intSize - 1) then
          some ((decimalValue (c :: cs) : Nat) : Int) else none := by
      unfold Atoi
      split
      · next r heq => exact absurd (List.cons.inj heq).1 hcm
      · next r heq => exact absurd (List.cons.inj heq).1 hcp
      · simp only [List.isEmpty_cons, Bool.false_eq_true, if_false, hp, List.head?_cons,
          Option.some.injEq, hcm]
    rw [hA]
    split_ifs with hlt
    · simp only [Option.some.injEq, ne_eq, reduceCtorEq, not_false_eq_true, true_and]
      exact ⟨fun h => ⟨h.symm, hlt⟩, fun h => h.1.symm⟩
    · simp only [false_iff]
      rintro ⟨_, _, hlt2⟩
      exact hlt hlt2

theorem Atoi_eq_none_of_not_digits (intSize : Nat) (v : Str)
    (hm : ∀ r, v ≠ '-' :: r) (hp : ∀ r, v ≠ '+' :: r)
    (hd : ¬ ∀ c ∈ v, c.isDigit = true) : Atoi intSize v = none := by
  have hparse : parseDigits 0 v = none := by
    cases h : parseDigits 0 v with
    | none => rfl
    | some m => exact absurd ((parseDigits_zero_eq_some_iff v m).1 h).1 hd
  unfold Atoi
  split
  · next r => exact absurd rfl (hm r)
  · next r => exact absurd rfl (hp r)
  · simp only [hparse]
    split_ifs <;> rfl

theorem Atoi_eq_some_iff (intSize : Nat) (v : Str) (n : Int) :
    Atoi intSize v = some n ↔
      ∃ body : Str, body ≠ [] ∧ (∀ c ∈ body, c.isDigit = true) ∧
        (((v = body ∨ v = '+' :: body) ∧ n = ((decimalValue body : Nat) : Int) ∧
            decimalValue body < 2 ^ (intSize - 1)) ∨
          (v = '-' :: body ∧ n = -((decimalValue body : Nat) : Int) ∧
            decimalValue body ≤ 2 ^ (intSize - 1))) := by
  have hminus : ¬ ('-' : Char).isDigit = true := by decide
  have hplus : ¬ ('+' : Char).isDigit = true := by decide
  constructor
  · intro h
    by_cases h1 : ∃ r, v = '-' :: r
    · obtain ⟨r, rfl⟩ := h1
      obtain ⟨a, b, c, d⟩ := (Atoi_minus_eq_some_iff intSize r n).1 h
      exact ⟨r, a, b, Or.inr ⟨rfl, c, d⟩⟩
    · by_cases h2 : ∃ r, v = '+' :: r
      · obtain ⟨r, rfl⟩ := h2
        obtain ⟨a, b, c, d⟩ := (Atoi_plus_eq_some_iff intSize r n).1 h
        exact ⟨r, a, b, Or.inl ⟨Or.inr rfl, c, d⟩⟩
      · by_cases hd : ∀ c ∈ v, c.isDigit = true
        · obtain ⟨a, c, d⟩ := (Atoi_digits_eq_some_iff intSize v n hd).1 h
          exact ⟨v, a, hd, Or.inl ⟨Or.inl rfl, c, d⟩⟩
        · rw [Atoi_eq_none_of_not_digits intSize v (fun r hr => h1 ⟨r, hr⟩)
            (fun r hr => h2 ⟨r, hr⟩) hd] at h
          exact Option.noConfusion h
  · rintro ⟨body, hne, hd, ⟨hv | hv, hn, hlt⟩ | ⟨hv, hn, hle⟩⟩
    · subst hv
      exact (Atoi_digits_eq_some_iff intSize v n hd).2 ⟨hne, hn, hlt⟩
    · subst hv
      exact (Atoi_plus_eq_some_iff intSize body n).2 ⟨hne, hd, hn, hlt⟩
    · subst hv
      exact (Atoi_minus_eq_some_iff intSize body n).2 ⟨hne, hd, hn, hle⟩

theorem Atoi_eq_some_iff_ParsesAsInt (intSize : Nat) (v : Str) (n : Int) :
    Atoi intSize v = some n ↔ ParsesAsInt intSize v n :=
  Atoi_eq_some_iff intSize v n

theorem GetEventInfo_pair (env : Env) (data roomID : Str) (a b : Event)
    (h : (GetEventInfo env data roomID).1 = [a, b]) :
    HasMarker data ∧ ∃ E, GetEventType env (ReplaceAllString data) = .ok E ∧
      b = (extract env E data roomID).1 ∧ (extract env E data roomID).2 = none ∧
      ¬ Suppressed env (extract env E data roomID).1 ∧
      "minutes".toList <:+: (extract env E data roomID).1.Key ∧
      ∃ n, Atoi env.intSize (extract env E data roomID).1.Value = some n ∧
        a = hoursMinuteEventOf env (deviceNameOf data roomID) n := by
  rw [GetEventInfo_eq] at h
  by_cases h0 : FindString data = []
  · rw [if_pos h0] at h; simp at h
  · rw [if_neg h0] at h
    have hm : HasMarker data := by
      by_contra hm
      exact h0 ((FindString_eq_nil_iff data).2 hm)
    cases hc : GetEventType env (ReplaceAllString data) with
    | error e => rw [hc] at h; simp at h
    | ok E =>
      rw [hc] at h
      obtain ⟨hb, he, hs, hk, n, hn, ha⟩ := outcome_pair env _ _ a b h
      exact ⟨hm, E, rfl, hb, he, hs, hk, n, hn, ha⟩

/-! ## The claims -/

/-- C1: a raw message in which no `REP <ASCII digit>` occurs yields, for every
room, the empty event sequence and a nil error. This holds for every choice of
tokens and extractors, and an extractor with a state of its own finds that
state untouched: neither the classifier nor an extractor has been consulted. -/
theorem C1_no_marker_no_events (env : Env) (data roomID : Str) (h : ¬ HasMarker data) :
    GetEventInfo env data roomID = ([], none) ∧
    ∀ (σ : Type) (fill : Category → Str → Event → σ → (Event × Option NErr) × σ) (s : σ),
      GetEventInfoS env fill data roomID s = (([], none), s) := by
  have h0 : FindString data = [] := (FindString_eq_nil_iff data).2 h
  refine ⟨by rw [GetEventInfo_eq, if_pos h0], ?_⟩
  intro σ fill s
  simp [GetEventInfoS, h0]

/-- C1 at the heartbeat line `HEARTBEAT OK>` in room `BLDG-101`. -/
theorem C1_no_marker_no_events_witness :
    ¬ HasMarker "HEARTBEAT OK>".toList ∧
    GetEventInfo (sampleEnv (stubFill "minutes".toList "45".toList none))
      "HEARTBEAT OK>".toList "BLDG-101".toList = ([], none) :=
  ⟨(FindString_eq_nil_iff _).1 (by decide),
    (C1_no_marker_no_events _ _ _ ((FindString_eq_nil_iff _).1 (by decide))).1⟩

/-- C2 as stated fails: `BAREP 1TT` contains none of the sample tokens
`RF_INT_DET`, `TX_TYPE`, `BATT`, yet deleting its marker leaves `BATT`, the
message is classified as Battery and two events are returned. -/
theorem C2_counterexample :
    GetEventInfo (sampleEnv (stubFill "minutes".toList "45".toList none))
      "BAREP 1TT".toList "BLDG-101".toList ≠ ([], none) ∧
    Contains "BAREP 1TT".toList "RF_INT_DET".toList = false ∧
    Contains "BAREP 1TT".toList "TX_TYPE".toList = false ∧
    Contains "BAREP 1TT".toList "BATT".toList = false ∧
    ReplaceAllString "BAREP 1TT".toList = "BATT".toList ∧
    GetEventInfo (sampleEnv (stubFill "minutes".toList "45".toList none))
      "BAREP 1TT".toList "BLDG-101".toList =
      ([ { Key := "battery level (hours:minute remaining".toList
           Value := "0:45".toList
           TargetDevice := { DeviceID := "BLDG-101-MIC1".toList }
           EventTags := ["detail-state".toList, "auto-generated".toList] },
         { Key := "minutes".toList
           Value := "45".toList
           TargetDevice := { DeviceID := "BLDG-101-MIC1".toList } } ], none) := by
  decide

/-- C2, amended: when the message with its channel markers deleted (the text
the classifier is given) contains none of the three category tokens, then,
marker or not, the result is the empty sequence and a nil error: the
failure of `GetEventType` does not reach the caller. -/
theorem C2_unclassified_no_events (env : Env) (data roomID : Str)
    (hI : ¬ env.Interference <:+: ReplaceAllString data)
    (hP : ¬ env.Power <:+: ReplaceAllString data)
    (hB : ¬ env.Battery <:+: ReplaceAllString data) :
    (∃ e, GetEventType env (ReplaceAllString data) = .error e) ∧
    GetEventInfo env data roomID = ([], none) := by
  have hc : GetEventType env (ReplaceAllString data) =
      .error ⟨"Couldn't generate event type".toList, "invalid".toList⟩ := by
    simp only [GetEventType, (Contains_eq_false_iff _ _).2 hI, (Contains_eq_false_iff _ _).2 hP,
      (Contains_eq_false_iff _ _).2 hB, Bool.false_eq_true, if_false]
  refine ⟨⟨_, hc⟩, ?_⟩
  rw [GetEventInfo_eq, hc]
  split <;> rfl

/-- C2 (amended) at `REP 1 HEARTBEAT OK>`: a marker, no token. -/
theorem C2_unclassified_no_events_witness :
    (¬ "RF_INT_DET".toList <:+: ReplaceAllString "REP 1 HEARTBEAT OK>".toList) ∧
    (∃ e, GetEventType (sampleEnv (stubFill "minutes".toList "45".toList none))
      (ReplaceAllString "REP 1 HEARTBEAT OK>".toList) = .error e) ∧
    GetEventInfo (sampleEnv (stubFill "minutes".toList "45".toList none))
      "REP 1 HEARTBEAT OK>".toList "BLDG-101".toList = ([], none) :=
  ⟨(Contains_eq_false_iff _ _).1 (by decide),
    C2_unclassified_no_events (sampleEnv (stubFill "minutes".toList "45".toList none))
      "REP 1 HEARTBEAT OK>".toList "BLDG-101".toList
      ((Contains_eq_false_iff _ _).1 (by decide))
      ((Contains_eq_false_iff _ _).1 (by decide))
      ((Contains_eq_false_iff _ _).1 (by decide))⟩

/-- C3: for a message that carries a channel marker and is classified, the
primary event filled by the extractor is absent from the returned sequence if
and only if its Value is the FLAG sentinel up to letter case or its Key is
empty; otherwise, extractor error or not, it is a member of the sequence. -/
theorem C3_primary_excluded_iff_suppressed (env : Env) (data roomID : Str) (E : Category)
    (hm : HasMarker data) (hc : GetEventType env (ReplaceAllString data) = .ok E) :
    ((extract env E data roomID).1 ∉ (GetEventInfo env data roomID).1 ↔
      Suppressed env (extract env E data roomID).1) ∧
    (¬ Suppressed env (extract env E data roomID).1 →
      (extract env E data roomID).1 ∈ (GetEventInfo env data roomID).1) := by
  rw [GetEventInfo_of_classified env data roomID E hm hc]
  generalize extract env E data roomID = p
  have key : ¬ Suppressed env p.1 → p.1 ∈ (outcome env (deviceNameOf data roomID) p).1 := by
    intro hs
    rw [outcome_of_not_suppressed env _ p hs]
    split_ifs
    · simp
    · split <;> simp
    · simp
  refine ⟨⟨fun h => ?_, fun hs => ?_⟩, key⟩
  · by_contra hs
    exact h (key hs)
  · rw [outcome_of_suppressed env _ p hs]
    simp

/-- C3 at `REP 1 BATT>`: an extractor leaving the value `IGNORE` (the sample
sentinel in capitals) has its event excluded. -/
theorem C3_primary_excluded_iff_suppressed_witness :
    HasMarker "REP 1 BATT>".toList ∧
    Suppressed (sampleEnv (stubFill "level".toList "IGNORE".toList none))
      (extract (sampleEnv (stubFill "level".toList "IGNORE".toList none)) Category.Battery
        "REP 1 BATT>".toList "BLDG-101".toList).1 ∧
    (extract (sampleEnv (stubFill "level".toList "IGNORE".toList none)) Category.Battery
        "REP 1 BATT>".toList "BLDG-101".toList).1 ∉
      (GetEventInfo (sampleEnv (stubFill "level".toList "IGNORE".toList none))
        "REP 1 BATT>".toList "BLDG-101".toList).1 :=
  have hm : HasMarker "REP 1 BATT>".toList := ⟨'1', by decide, [], " BATT>".toList, by decide⟩
  have hs : Suppressed (sampleEnv (stubFill "level".toList "IGNORE".toList none))
      (extract (sampleEnv (stubFill "level".toList "IGNORE".toList none)) Category.Battery
        "REP 1 BATT>".toList "BLDG-101".toList).1 := Or.inl (by decide)
  ⟨hm, hs,
    (C3_primary_excluded_iff_suppressed
      (sampleEnv (stubFill "level".toList "IGNORE".toList none))
      "REP 1 BATT>".toList "BLDG-101".toList Category.Battery hm (by decide)).1.2 hs⟩

/-- C4 as stated fails: at `REP 1 BATT>` an extractor that returns an error
before it has set a key leaves a suppressed event; the result is the empty
sequence with a nil error, so the error is not surfaced and the event is not
returned. -/
theorem C4_counterexample :
    GetEventType (sampleEnv (stubFill [] [] (some ⟨"no level".toList, "invalid".toList⟩)))
      (ReplaceAllString "REP 1 BATT>".toList) = .ok Category.Battery ∧
    (extract (sampleEnv (stubFill [] [] (some ⟨"no level".toList, "invalid".toList⟩)))
      Category.Battery "REP 1 BATT>".toList "BLDG-101".toList).2 =
        some ⟨"no level".toList, "invalid".toList⟩ ∧
    GetEventInfo (sampleEnv (stubFill [] [] (some ⟨"no level".toList, "invalid".toList⟩)))
      "REP 1 BATT>".toList "BLDG-101".toList = ([], none) := by
  decide

/-- C4, amended: for a classified message on which the extractor returns an
error and leaves a primary event that is not suppressed (Value not the FLAG
sentinel, Key not empty), `GetEventInfo` returns that very error and the
sequence holding exactly the partially built primary event. -/
theorem C4_error_surfaced_unless_suppressed (env : Env) (data roomID : Str) (E : Category)
    (e : NErr) (hm : HasMarker data)
    (hc : GetEventType env (ReplaceAllString data) = .ok E)
    (he : (extract env E data roomID).2 = some e)
    (hs : ¬ Suppressed env (extract env E data roomID).1) :
    GetEventInfo env data roomID = ([(extract env E data roomID).1], some e) := by
  rw [GetEventInfo_of_classified env data roomID E hm hc]
  rw [outcome_of_not_suppressed env _ _ hs, he]
  simp

/-- C4 (amended) at `REP 1 BATT>` with an extractor that sets the key `level`
and the value `??` and reports an error. -/
theorem C4_error_surfaced_unless_suppressed_witness :
    GetEventInfo
      (sampleEnv (stubFill "level".toList "??".toList (some ⟨"bad level".toList, "invalid".toList⟩)))
      "REP 1 BATT>".toList "BLDG-101".toList =
      ([(extract
          (sampleEnv (stubFill "level".toList "??".toList
            (some ⟨"bad level".toList, "invalid".toList⟩)))
          Category.Battery "REP 1 BATT>".toList "BLDG-101".toList).1],
        some ⟨"bad level".toList, "invalid".toList⟩) :=
  C4_error_surfaced_unless_suppressed
    (sampleEnv (stubFill "level".toList "??".toList (some ⟨"bad level".toList, "invalid".toList⟩)))
    "REP 1 BATT>".toList "BLDG-101".toList Category.Battery
    ⟨"bad level".toList, "invalid".toList⟩
    ⟨'1', by decide, [], " BATT>".toList, by decide⟩ (by decide) (by decide)
    (by simp only [Suppressed, not_or]; exact ⟨by decide, by decide⟩)

/-- C5: for a classified message whose extractor succeeds (no error) with a
primary event that is not suppressed, whose Key contains `minutes` and whose
Value parses as the integer `n`, the result is the primary event and exactly
one further, derived event. The derived Value is the decimal rendering of
`n / 60`, a colon and the decimal rendering of `n % 60` (Go's truncating
operators), without padding. Its target device is generated from the device
name the primary event was created with, hence it is the primary event's
device as soon as the extractor has left that field in place. Its tags include
AutoGenerated. -/
theorem C5_minutes_derived_event (env : Env) (data roomID : Str) (E : Category)
    (primary : Event) (n : Int)
    (hm : HasMarker data)
    (hc : GetEventType env (ReplaceAllString data) = .ok E)
    (hfill : extract env E data roomID = (primary, none))
    (hs : ¬ Suppressed env primary)
    (hk : "minutes".toList <:+: primary.Key)
    (hv : Atoi env.intSize primary.Value = some n) :
    ∃ derived : Event,
      GetEventInfo env data roomID = ([derived, primary], none) ∧
      derived.Value = (toString (Int.tdiv n 60) ++ ":" ++ toString (Int.tmod n 60)).toList ∧
      derived.TargetDevice = env.GenerateBasicDeviceInfo (deviceNameOf data roomID) ∧
      (primary.TargetDevice = env.GenerateBasicDeviceInfo (deviceNameOf data roomID) →
        derived.TargetDevice = primary.TargetDevice) ∧
      env.AutoGenerated ∈ derived.EventTags := by
  refine ⟨hoursMinuteEventOf env (deviceNameOf data roomID) n, ?_,
    hoursMinuteEventOf_Value env _ n, rfl, fun ht => ?_, ?_⟩
  · rw [GetEventInfo_of_classified env data roomID E hm hc, hfill,
      outcome_of_not_suppressed env _ _ hs]
    simp only [Option.isSome_none, Bool.false_eq_true, if_false,
      (Contains_iff_occurs _ _).2 hk, if_true, hv]
  · rw [ht]; rfl
  · simp [hoursMinuteEventOf]

/-- C5 at `REP 1 BATT 125 minutes>` in room `BLDG-101`: 125 minutes give `2:5`;
and 45 minutes give `0:45`. -/
theorem C5_minutes_derived_event_witness :
    (∃ derived : Event,
      GetEventInfo (sampleEnv (stubFill "minutes".toList "125".toList none))
        "REP 1 BATT 125 minutes>".toList "BLDG-101".toList =
        ([derived, { Key := "minutes".toList, Value := "125".toList,
                     TargetDevice := { DeviceID := "BLDG-101-MIC1".toList } }], none) ∧
      derived.Value = "2:5".toList ∧
      derived.TargetDevice = { DeviceID := "BLDG-101-MIC1".toList } ∧
      "auto-generated".toList ∈ derived.EventTags) ∧
    (toString (Int.tdiv 45 60) ++ ":" ++ toString (Int.tmod 45 60)).toList = "0:45".toList :=
  ⟨(C5_minutes_derived_event (sampleEnv (stubFill "minutes".toList "125".toList none))
      "REP 1 BATT 125 minutes>".toList "BLDG-101".toList Category.Battery
      { Key := "minutes".toList, Value := "125".toList,
        TargetDevice := { DeviceID := "BLDG-101-MIC1".toList } } 125
      ⟨'1', by decide, [], " BATT 125 minutes>".toList, by decide⟩
      (by decide) (by decide)
      (by simp only [Suppressed, not_or]; exact ⟨by decide, by decide⟩)
      ((Contains_iff_occurs _ _).1 (by decide)) (by decide)).imp
      (fun _ h => ⟨h.1, h.2.1.trans (by decide), h.2.2.1.trans (by decide), h.2.2.2.2⟩),
    by decide⟩

/-- C6 as stated fails: at `REP 1 BATT 45 minutes>` both events are returned,
but the first element is the derived hours:minutes event and the last one is
the primary event, not the other way round. -/
theorem C6_counterexample :
    (GetEventInfo (sampleEnv (stubFill "minutes".toList "45".toList none))
      "REP 1 BATT 45 minutes>".toList "BLDG-101".toList).1 =
      [hoursMinuteEventOf (sampleEnv (stubFill "minutes".toList "45".toList none))
          "BLDG-101-MIC1".toList 45,
        (extract (sampleEnv (stubFill "minutes".toList "45".toList none)) Category.Battery
          "REP 1 BATT 45 minutes>".toList "BLDG-101".toList).1] ∧
    (GetEventInfo (sampleEnv (stubFill "minutes".toList "45".toList none))
      "REP 1 BATT 45 minutes>".toList "BLDG-101".toList).1.head? ≠
      some (extract (sampleEnv (stubFill "minutes".toList "45".toList none)) Category.Battery
        "REP 1 BATT 45 minutes>".toList "BLDG-101".toList).1 ∧
    (GetEventInfo (sampleEnv (stubFill "minutes".toList "45".toList none))
      "REP 1 BATT 45 minutes>".toList "BLDG-101".toList).1.getLast? ≠
      some (hoursMinuteEventOf (sampleEnv (stubFill "minutes".toList "45".toList none))
        "BLDG-101-MIC1".toList 45) := by
  decide

/-- C6, amended: whenever `GetEventInfo` returns two events `[a, b]`, the first
one, `a`, is the derived hours:minutes event and the last one, `b`, is the
primary event filled by the extractor; the two are different events, and the
loop of `Monitor` hands them to `PublishEvent` in that order, derived then
primary (an event without a device ID being skipped). -/
theorem C6_derived_then_primary (env : Env) (data roomID : Str) (a b : Event)
    (h : (GetEventInfo env data roomID).1 = [a, b]) :
    (∃ E, GetEventType env (ReplaceAllString data) = .ok E ∧
      b = (extract env E data roomID).1) ∧
    (∃ n, Atoi env.intSize b.Value = some n ∧
      a = hoursMinuteEventOf env (deviceNameOf data roomID) n) ∧
    a ≠ b ∧
    ∀ (σ : Type) (publish : Event → σ → Option Str × σ) (systemID building room : Str) (s : σ),
      publishedEvents
        (publishEvents publish systemID building room (GetEventInfo env data roomID).1 s).1 =
        [a, b].filter (fun event => decide (event.TargetDevice.DeviceID ≠ [])) := by
  have hpub : ∀ (σ : Type) (publish : Event → σ → Option Str × σ)
      (systemID building room : Str) (s : σ),
      publishedEvents
        (publishEvents publish systemID building room (GetEventInfo env data roomID).1 s).1 =
        [a, b].filter (fun event => decide (event.TargetDevice.DeviceID ≠ [])) := by
    intro σ publish systemID building room s
    rw [publishedEvents_publishEvents, h]
  rw [GetEventInfo_eq] at h
  by_cases h0 : FindString data = []
  · rw [if_pos h0] at h; simp at h
  · rw [if_neg h0] at h
    cases hc : GetEventType env (ReplaceAllString data) with
    | error e => rw [hc] at h; simp at h
    | ok E =>
      rw [hc] at h
      obtain ⟨hb, _, _, hk, n, hn, ha⟩ := outcome_pair env _ _ a b h
      refine ⟨⟨E, rfl, hb⟩, ⟨n, by rw [hb]; exact hn, ha⟩, ?_, hpub⟩
      intro hab
      have hkey : a.Key = "battery level (hours:minute remaining".toList := by rw [ha]; rfl
      rw [← hb, ← hab, hkey] at hk
      exact absurd ((Contains_iff_occurs _ _).2 hk) (by decide)

/-- C6 (amended) at `REP 1 BATT 45 minutes>` in room `BLDG-101`: the derived
event `0:45` comes first, the primary event `45` last. -/
theorem C6_derived_then_primary_witness :
    (GetEventInfo (sampleEnv (stubFill "minutes".toList "45".toList none))
      "REP 1 BATT 45 minutes>".toList "BLDG-101".toList).1 =
      [ { Key := "battery level (hours:minute remaining".toList
          Value := "0:45".toList
          TargetDevice := { DeviceID := "BLDG-101-MIC1".toList }
          EventTags := ["detail-state".toList, "auto-generated".toList] },
        { Key := "minutes".toList
          Value := "45".toList
          TargetDevice := { DeviceID := "BLDG-101-MIC1".toList } } ] ∧
    (∃ n, Atoi 64 "45".toList = some n ∧
      ({ Key := "battery level (hours:minute remaining".toList
         Value := "0:45".toList
         TargetDevice := { DeviceID := "BLDG-101-MIC1".toList }
         EventTags := ["detail-state".toList, "auto-generated".toList] } : Event) =
        hoursMinuteEventOf (sampleEnv (stubFill "minutes".toList "45".toList none))
          (deviceNameOf "REP 1 BATT 45 minutes>".toList "BLDG-101".toList) n) ∧
    (publishedEvents
      (publishEvents acceptAll "SYS".toList "BLDG".toList "101".toList
        (GetEventInfo (sampleEnv (stubFill "minutes".toList "45".toList none))
          "REP 1 BATT 45 minutes>".toList "BLDG-101".toList).1 0).1).map
        (fun event => event.Value) = ["0:45".toList, "45".toList] :=
  ⟨by decide,
    (C6_derived_then_primary (sampleEnv (stubFill "minutes".toList "45".toList none))
      "REP 1 BATT 45 minutes>".toList "BLDG-101".toList
      { Key := "battery level (hours:minute remaining".toList
        Value := "0:45".toList
        TargetDevice := { DeviceID := "BLDG-101-MIC1".toList }
        EventTags := ["detail-state".toList, "auto-generated".toList] }
      { Key := "minutes".toList
        Value := "45".toList
        TargetDevice := { DeviceID := "BLDG-101-MIC1".toList } }
      (by decide)).2.1,
    by decide⟩

/-- C7: for a classified message whose extractor succeeds with a primary event
that is not suppressed, whose Key contains `minutes` and whose Value does not
parse as an integer, the result is exactly the one-element sequence holding the
primary event, with a nil error. -/
theorem C7_unparsable_minutes (env : Env) (data roomID : Str) (E : Category) (primary : Event)
    (hm : HasMarker data)
    (hc : GetEventType env (ReplaceAllString data) = .ok E)
    (hfill : extract env E data roomID = (primary, none))
    (hs : ¬ Suppressed env primary)
    (hk : "minutes".toList <:+: primary.Key)
    (hv : Atoi env.intSize primary.Value = none) :
    GetEventInfo env data roomID = ([primary], none) := by
  rw [GetEventInfo_of_classified env data roomID E hm hc, hfill,
    outcome_of_not_suppressed env _ _ hs]
  simp only [Option.isSome_none, Bool.false_eq_true, if_false,
    (Contains_iff_occurs _ _).2 hk, if_true, hv]

/-- C7 at `REP 1 BATT soon minutes>`: the value `soon` is no integer. -/
theorem C7_unparsable_minutes_witness :
    Atoi 64 "soon".toList = none ∧
    GetEventInfo (sampleEnv (stubFill "minutes".toList "soon".toList none))
      "REP 1 BATT soon minutes>".toList "BLDG-101".toList =
      ([{ Key := "minutes".toList, Value := "soon".toList,
          TargetDevice := { DeviceID := "BLDG-101-MIC1".toList } }], none) :=
  ⟨by decide,
    C7_unparsable_minutes (sampleEnv (stubFill "minutes".toList "soon".toList none))
      "REP 1 BATT soon minutes>".toList "BLDG-101".toList Category.Battery
      { Key := "minutes".toList, Value := "soon".toList,
        TargetDevice := { DeviceID := "BLDG-101-MIC1".toList } }
      ⟨'1', by decide, [], " BATT soon minutes>".toList, by decide⟩
      (by decide) (by decide)
      (by simp only [Suppressed, not_or]; exact ⟨by decide, by decide⟩)
      ((Contains_iff_occurs _ _).1 (by decide)) (by decide)⟩

/-- C8: when the leftmost channel marker of the message is `REP d` (the message
is `pre ++ "REP d" ++ post` with no marker inside `pre`), every event returned
for room `roomID`, primary or derived, has as target device the device info
generated from `roomID ++ "-MIC" ++ d`; for the primary event this uses that
the extractors leave the target device they are handed in place. -/
theorem C8_target_device_of_leftmost_marker (env : Env) (roomID pre post : Str) (d : Char)
    (hd : d.isDigit = true) (hpre : ¬ HasMarker pre)
    (hkeep : ∀ (E : Category) (msg : Str) (event : Event),
      (env.FillEventInfo E msg event).1.TargetDevice = event.TargetDevice) :
    ∀ event ∈ (GetEventInfo env (pre ++ marker d ++ post) roomID).1,
      event.TargetDevice = env.GenerateBasicDeviceInfo (roomID ++ "-MIC".toList ++ [d]) := by
  intro event hmem
  have hname : deviceNameOf (pre ++ marker d ++ post) roomID = roomID ++ "-MIC".toList ++ [d] := by
    unfold deviceNameOf
    rw [FindString_leftmost pre post d hd hpre]
    rfl
  rw [GetEventInfo_eq] at hmem
  split_ifs at hmem with h0
  · simp at hmem
  · cases hc : GetEventType env (ReplaceAllString (pre ++ marker d ++ post)) with
    | error e => rw [hc] at hmem; simp at hmem
    | ok E =>
      rw [hc] at hmem
      rcases outcome_mem env _ _ event hmem with h | ⟨n, h⟩
      · rw [h, extract, hkeep, hname]
      · rw [h, hname]; rfl

/-- C8 at room `BLDG-101` and `REP 1 BATT 45 minutes>`: both returned events
target `BLDG-101-MIC1`; a later marker `REP 2` does not change the device. -/
theorem C8_target_device_of_leftmost_marker_witness :
    (∀ event ∈ (GetEventInfo (sampleEnv (stubFill "minutes".toList "45".toList none))
        "REP 1 BATT 45 minutes>".toList "BLDG-101".toList).1,
      event.TargetDevice = { DeviceID := "BLDG-101-MIC1".toList }) ∧
    (GetEventInfo (sampleEnv (stubFill "minutes".toList "45".toList none))
        "REP 1 BATT 45 minutes>".toList "BLDG-101".toList).1.length = 2 ∧
    (GetEventInfo (sampleEnv (stubFill "minutes".toList "45".toList none))
        "x REP 1 BATT REP 2>".toList "BLDG-101".toList).1.map (fun event => event.TargetDevice) =
      [{ DeviceID := "BLDG-101-MIC1".toList }, { DeviceID := "BLDG-101-MIC1".toList }] :=
  ⟨C8_target_device_of_leftmost_marker (sampleEnv (stubFill "minutes".toList "45".toList none))
      "BLDG-101".toList [] " BATT 45 minutes>".toList '1' (by decide)
      ((FindString_eq_nil_iff _).1 (by decide)) (fun _ _ _ => rfl),
    by decide, by decide⟩

/-- C9: `GetEventType` classifies by first match in the order Interference,
Power, Battery: Interference iff the Interference token occurs; Power iff the
Power token occurs and the Interference token does not; Battery iff the Battery
token occurs and neither of the other two does; an error iff none occurs. -/
theorem C9_classification_priority (env : Env) (data : Str) :
    (GetEventType env data = .ok Category.Interference ↔ env.Interference <:+: data) ∧
    (GetEventType env data = .ok Category.Power ↔
      env.Power <:+: data ∧ ¬ env.Interference <:+: data) ∧
    (GetEventType env data = .ok Category.Battery ↔
      env.Battery <:+: data ∧ ¬ env.Power <:+: data ∧ ¬ env.Interference <:+: data) ∧
    ((∃ e, GetEventType env data = .error e) ↔
      ¬ env.Interference <:+: data ∧ ¬ env.Power <:+: data ∧ ¬ env.Battery <:+: data) := by
  simp only [← Contains_iff_occurs]
  unfold GetEventType
  cases Contains data env.Interference <;> cases Contains data env.Power <;>
    cases Contains data env.Battery <;> simp

/-- C10: with extractors whose result does not depend on the state they run in,
`GetEventInfo` returns the same event sequence and the same error from every
state: a second call with the same arguments, made in the state the first call
left behind, repeats the first result, and that result is the value of the
state-free `GetEventInfo`. -/
theorem C10_deterministic_stateless {σ : Type} (env : Env)
    (fill : Category → Str → Event → σ → (Event × Option NErr) × σ)
    (hdet : ∀ (E : Category) (msg : Str) (event : Event) (s s' : σ),
      (fill E msg event s).1 = (fill E msg event s').1)
    (data roomID : Str) (s s' : σ) :
    (GetEventInfoS env fill data roomID s').1 = (GetEventInfoS env fill data roomID s).1 ∧
    (GetEventInfoS env fill data roomID (GetEventInfoS env fill data roomID s).2).1 =
      (GetEventInfoS env fill data roomID s).1 ∧
    (GetEventInfoS env fill data roomID s).1 =
      GetEventInfo { env with FillEventInfo := fun E msg event => (fill E msg event s).1 }
        data roomID := by
  have key : ∀ t : σ, (GetEventInfoS env fill data roomID t).1 =
      (GetEventInfoS env fill data roomID s).1 := by
    intro t
    rw [GetEventInfoS_eq, GetEventInfoS_eq]
    have hfun : (fun E msg event => (fill E msg event t).1) =
        (fun E msg event => (fill E msg event s).1) := by
      funext E msg event
      exact hdet E msg event t s
    rw [hfun]
  exact ⟨key s', key _, GetEventInfoS_eq env fill data roomID s⟩

/-- C10 with the call-counting extractor: the first call (state 0) and the
call after it return the same result, although the state has changed. -/
theorem C10_deterministic_stateless_witness :
    (GetEventInfoS (sampleEnv (stubFill [] [] none)) countingFill
      "REP 1 BATT 045>".toList "BLDG-101".toList 0).2 = 1 ∧
    (GetEventInfoS (sampleEnv (stubFill [] [] none)) countingFill
        "REP 1 BATT 045>".toList "BLDG-101".toList
        (GetEventInfoS (sampleEnv (stubFill [] [] none)) countingFill
          "REP 1 BATT 045>".toList "BLDG-101".toList 0).2).1 =
      (GetEventInfoS (sampleEnv (stubFill [] [] none)) countingFill
        "REP 1 BATT 045>".toList "BLDG-101".toList 0).1 :=
  ⟨by decide,
    (C10_deterministic_stateless (sampleEnv (stubFill [] [] none)) countingFill
      (fun _ _ _ _ _ => rfl) "REP 1 BATT 045>".toList "BLDG-101".toList 0 0).2.1⟩

/-- C11 on the code: the key of every derived event is the literal of line 151,
`battery level (hours:minute remaining`, which is not the string
`battery level (hours:minutes remaining)` of the claim; evaluated at
`REP 1 BATT 45 minutes>` in room `BLDG-101`. -/
theorem C11_derived_key_literal :
    (∀ (env : Env) (deviceName : Str) (val : Int),
      (hoursMinuteEventOf env deviceName val).Key =
          "battery level (hours:minute remaining".toList ∧
        (hoursMinuteEventOf env deviceName val).Key ≠
          "battery level (hours:minutes remaining)".toList) ∧
    (GetEventInfo (sampleEnv (stubFill "minutes".toList "45".toList none))
      "REP 1 BATT 45 minutes>".toList "BLDG-101".toList).1.map (fun event => event.Key) =
      ["battery level (hours:minute remaining".toList, "minutes".toList] :=
  ⟨fun _ _ _ =>
      ⟨rfl, show "battery level (hours:minute remaining".toList ≠
        "battery level (hours:minutes remaining)".toList by decide⟩,
    by decide⟩

/-- C12 as stated fails: from the stream `REP 1 BATT 45 minutes>REP 2 ...` the
framing step returns `REP 1 BATT 45 minutes>`, terminator included, and that is
the message the iteration works on. -/
theorem C12_counterexample :
    (Stream.ReadString ⟨"REP 1 BATT 45 minutes>REP 2 BATT".toList, "EOF".toList⟩ '>').1 =
      ("REP 1 BATT 45 minutes>".toList, none) ∧
    '>' ∈ (Stream.ReadString ⟨"REP 1 BATT 45 minutes>REP 2 BATT".toList, "EOF".toList⟩ '>').1.1 ∧
    step (sampleEnv (stubFill "minutes".toList "45".toList none)) sampleWorld
      "BLDG".toList "101".toList (Phase.reading ⟨"RX1".toList, "10.0.0.5".toList⟩ 0)
      ⟨[], ⟨"REP 1 BATT 45 minutes>REP 2 BATT".toList, "EOF".toList⟩⟩ =
      ((Action.ReadString 0 '>' ::
          (handleMessage (sampleEnv (stubFill "minutes".toList "45".toList none)) sampleWorld
            "BLDG".toList "101".toList "REP 1 BATT 45 minutes>".toList
            ⟨[], ⟨"REP 2 BATT".toList, "EOF".toList⟩⟩).1.map Action.publishing,
        Phase.reading ⟨"RX1".toList, "10.0.0.5".toList⟩ 0),
        ⟨[], ⟨"REP 2 BATT".toList, "EOF".toList⟩⟩) := by
  decide

/-- C12, amended: when the stream behind the reader still holds a terminator,
the message returned by `ReadString` and handed to `GetEventInfo` (through
`handleMessage`) is the unread text up to the next terminator followed by that
terminator: it ends with `>` and contains no other `>`; the text after the
terminator stays unread. -/
theorem C12_message_ends_with_terminator {σ κ : Type} (env : Env) (w : World σ κ)
    (building room : Str) (device : Device) (connection : κ) (s s1 : σ) (wire : Stream)
    (hread : w.ReadString connection '>' s = ((wire.ReadString '>').1, s1))
    (hterm : '>' ∈ wire.pending) :
    ∃ body rest : Str,
      wire.pending = body ++ '>' :: rest ∧ '>' ∉ body ∧
      wire.ReadString '>' = ((body ++ ['>'], none), ⟨rest, wire.failure⟩) ∧
      step env w building room (Phase.reading device connection) s =
        ((Action.ReadString connection '>' ::
            (handleMessage env w building room (body ++ ['>']) s1).1.map Action.publishing,
          Phase.reading device connection),
          (handleMessage env w building room (body ++ ['>']) s1).2) := by
  obtain ⟨body, rest, h1, h2, h3⟩ := readUntil_of_mem '>' wire.pending hterm
  have hrs : wire.ReadString '>' = ((body ++ ['>'], none), ⟨rest, wire.failure⟩) := by
    simp [Stream.ReadString, h3]
  refine ⟨body, rest, h1, h2, hrs, ?_⟩
  rw [hrs] at hread
  exact step_reading_ok env w building room device connection s s1 _ hread

/-- C12 (amended) in the sample world, for the stream
`REP 1 BATT 45 minutes>REP 2 BATT`. -/
theorem C12_message_ends_with_terminator_witness :
    ∃ body rest : Str,
      "REP 1 BATT 45 minutes>REP 2 BATT".toList = body ++ '>' :: rest ∧ '>' ∉ body ∧
      Stream.ReadString ⟨"REP 1 BATT 45 minutes>REP 2 BATT".toList, "EOF".toList⟩ '>' =
        ((body ++ ['>'], none), ⟨rest, "EOF".toList⟩) :=
  (C12_message_ends_with_terminator (sampleEnv (stubFill "minutes".toList "45".toList none))
    sampleWorld "BLDG".toList "101".toList ⟨"RX1".toList, "10.0.0.5".toList⟩ 0
    ⟨[], ⟨"REP 1 BATT 45 minutes>REP 2 BATT".toList, "EOF".toList⟩⟩
    ⟨[], ⟨"REP 2 BATT".toList, "EOF".toList⟩⟩
    ⟨"REP 1 BATT 45 minutes>REP 2 BATT".toList, "EOF".toList⟩ (by decide) (by decide)).imp
    (fun _ h => h.imp (fun _ h' => ⟨h'.1, h'.2.1, h'.2.2.1⟩))

/-- C13: when the device lookup, after any number of failed attempts, succeeds
with more than one receiver, `Monitor` returns as soon as it is given enough
rounds: its only call into package `publishing` is one `ReportError` with the
ambiguity message, and it has dialled nothing and read nothing. -/
theorem C13_ambiguous_receivers_reported_once {σ κ : Type} (env : Env) (w : World σ κ)
    (building room : Str) (k : Nat) (s t t1 : σ) (shure : List Device)
    (hfails : LookupFails w (building ++ "-".toList ++ room) k s t)
    (hok : w.GetDevicesByRoomAndRole (building ++ "-".toList ++ room) "Receiver".toList t =
      (.ok shure, t1))
    (hmany : 1 < shure.length) (rounds : Nat) (hrounds : k < rounds) :
    (Monitor env w building room rounds s).1.2 = Phase.returned ∧
    (Monitor env w building room rounds s).2 = t1 ∧
    callsOf (Monitor env w building room rounds s).1.1 =
      [Call.ReportError
        ("[error] detected ".toList ++ formatInt (shure.length : Nat) ++
          " recievers, expecting 1.".toList)
        w.SYSTEM_ID building room] ∧
    dialCount (Monitor env w building room rounds s).1.1 = 0 ∧
    readCount (Monitor env w building room rounds s).1.1 = 0 := by
  obtain ⟨extra, rfl⟩ : ∃ extra, rounds = k + (extra + 1) := ⟨rounds - k - 1, by omega⟩
  obtain ⟨before, h1, h2, h3, h4⟩ :=
    run_lookup_fails env w building room k s t hfails (extra + 1)
  obtain ⟨d1, d2, more, rfl⟩ : ∃ d1 d2 more, shure = d1 :: d2 :: more := by
    match shure, hmany with
    | d1 :: d2 :: more, _ => exact ⟨d1, d2, more, rfl⟩
  have hstep : run env w building room (extra + 1) Phase.lookup t =
      (([Action.GetDevicesByRoomAndRole (building ++ "-".toList ++ room) "Receiver".toList,
        Action.publishing (Call.ReportError
          ("[error] detected ".toList ++ formatInt ((d1 :: d2 :: more).length : Nat) ++
            " recievers, expecting 1.".toList) w.SYSTEM_ID building room)],
        Phase.returned), t1) := by
    rw [run]
    simp only [step, hok, run_returned]
    simp
  unfold Monitor
  rw [h4, hstep]
  refine ⟨rfl, rfl, ?_, ?_, ?_⟩
  · rw [callsOf_append, h1]; simp [callsOf]
  · rw [dialCount_append, h2]; simp [dialCount]
  · rw [readCount_append, h3]; simp [readCount]

/-- C13 in the sample world: one failed lookup, then two receivers. -/
theorem C13_ambiguous_receivers_reported_once_witness :
    callsOf (Monitor (sampleEnv (stubFill [] [] none)) sampleWorld "BLDG".toList "101".toList 9
      ⟨[.error "down".toList,
        .ok [⟨"RX1".toList, "10.0.0.5".toList⟩, ⟨"RX2".toList, "10.0.0.6".toList⟩]],
        ⟨"REP 1 BATT 45 minutes>".toList, "EOF".toList⟩⟩).1.1 =
      [Call.ReportError "[error] detected 2 recievers, expecting 1.".toList
        "SYS".toList "BLDG".toList "101".toList] ∧
    dialCount (Monitor (sampleEnv (stubFill [] [] none)) sampleWorld "BLDG".toList "101".toList 9
      ⟨[.error "down".toList,
        .ok [⟨"RX1".toList, "10.0.0.5".toList⟩, ⟨"RX2".toList, "10.0.0.6".toList⟩]],
        ⟨"REP 1 BATT 45 minutes>".toList, "EOF".toList⟩⟩).1.1 = 0 :=
  have h := C13_ambiguous_receivers_reported_once (sampleEnv (stubFill [] [] none)) sampleWorld
    "BLDG".toList "101".toList 1
    ⟨[.error "down".toList,
      .ok [⟨"RX1".toList, "10.0.0.5".toList⟩, ⟨"RX2".toList, "10.0.0.6".toList⟩]],
      ⟨"REP 1 BATT 45 minutes>".toList, "EOF".toList⟩⟩
    ⟨[.ok [⟨"RX1".toList, "10.0.0.5".toList⟩, ⟨"RX2".toList, "10.0.0.6".toList⟩]],
      ⟨"REP 1 BATT 45 minutes>".toList, "EOF".toList⟩⟩
    ⟨[], ⟨"REP 1 BATT 45 minutes>".toList, "EOF".toList⟩⟩
    [⟨"RX1".toList, "10.0.0.5".toList⟩, ⟨"RX2".toList, "10.0.0.6".toList⟩]
    (LookupFails.succ 0 _ _ _ "down".toList rfl (LookupFails.zero _)) rfl (by decide) 9 (by decide)
  ⟨h.2.2.1, h.2.2.2.1⟩

/-- C14: when the device lookup, after any number of failed attempts, succeeds
with no receiver, `Monitor` returns as soon as it is given enough rounds and
has made no call into package `publishing` (no `ReportError`, no
`PublishEvent`), no dial and no read. -/
theorem C14_no_receiver_no_op {σ κ : Type} (env : Env) (w : World σ κ)
    (building room : Str) (k : Nat) (s t t1 : σ)
    (hfails : LookupFails w (building ++ "-".toList ++ room) k s t)
    (hok : w.GetDevicesByRoomAndRole (building ++ "-".toList ++ room) "Receiver".toList t =
      (.ok [], t1))
    (rounds : Nat) (hrounds : k < rounds) :
    (Monitor env w building room rounds s).1.2 = Phase.returned ∧
    (Monitor env w building room rounds s).2 = t1 ∧
    callsOf (Monitor env w building room rounds s).1.1 = [] ∧
    dialCount (Monitor env w building room rounds s).1.1 = 0 ∧
    readCount (Monitor env w building room rounds s).1.1 = 0 := by
  obtain ⟨extra, rfl⟩ : ∃ extra, rounds = k + (extra + 1) := ⟨rounds - k - 1, by omega⟩
  obtain ⟨before, h1, h2, h3, h4⟩ :=
    run_lookup_fails env w building room k s t hfails (extra + 1)
  have hstep : run env w building room (extra + 1) Phase.lookup t =
      (([Action.GetDevicesByRoomAndRole (building ++ "-".toList ++ room) "Receiver".toList],
        Phase.returned), t1) := by
    rw [run]
    simp only [step, hok, run_returned]
    simp
  unfold Monitor
  rw [h4, hstep]
  refine ⟨rfl, rfl, ?_, ?_, ?_⟩
  · rw [callsOf_append, h1]; simp [callsOf]
  · rw [dialCount_append, h2]; simp [dialCount]
  · rw [readCount_append, h3]; simp [readCount]

/-- C14 in the sample world: the first lookup answers with no receiver. -/
theorem C14_no_receiver_no_op_witness :
    (Monitor (sampleEnv (stubFill [] [] none)) sampleWorld "BLDG".toList "101".toList 9
      ⟨[.ok []], ⟨"REP 1 BATT 45 minutes>".toList, "EOF".toList⟩⟩).1.2 = Phase.returned ∧
    callsOf (Monitor (sampleEnv (stubFill [] [] none)) sampleWorld "BLDG".toList "101".toList 9
      ⟨[.ok []], ⟨"REP 1 BATT 45 minutes>".toList, "EOF".toList⟩⟩).1.1 = [] :=
  have h := C14_no_receiver_no_op (sampleEnv (stubFill [] [] none)) sampleWorld
    "BLDG".toList "101".toList 0
    ⟨[.ok []], ⟨"REP 1 BATT 45 minutes>".toList, "EOF".toList⟩⟩
    ⟨[.ok []], ⟨"REP 1 BATT 45 minutes>".toList, "EOF".toList⟩⟩
    ⟨[], ⟨"REP 1 BATT 45 minutes>".toList, "EOF".toList⟩⟩
    (LookupFails.zero _) rfl 9 (by decide)
  ⟨h.1, h.2.2.1⟩

/-- C15 as stated fails: the message `BAREP 1TT>` is read without error and
contains none of the sample tokens, yet the iteration publishes two events. -/
theorem C15_counterexample :
    (sampleWorld.ReadString 0 '>' ⟨[], ⟨"BAREP 1TT>".toList, "EOF".toList⟩⟩).1 =
      ("BAREP 1TT>".toList, none) ∧
    Contains "BAREP 1TT>".toList "RF_INT_DET".toList = false ∧
    Contains "BAREP 1TT>".toList "TX_TYPE".toList = false ∧
    Contains "BAREP 1TT>".toList "BATT".toList = false ∧
    (publishedEvents (callsOf
      (step (sampleEnv (stubFill "minutes".toList "45".toList none)) sampleWorld
        "BLDG".toList "101".toList (Phase.reading ⟨"RX1".toList, "10.0.0.5".toList⟩ 0)
        ⟨[], ⟨"BAREP 1TT>".toList, "EOF".toList⟩⟩).1.1)).map (fun event => event.Value) =
      ["0:45".toList, "45".toList] := by
  decide

/-- C15, amended: in an iteration of the read loop in which a message is read
without error and either carries no channel marker or, once its markers are
deleted, contains none of the three category tokens, `Monitor` does nothing but
the read: no `ReportError`, no `PublishEvent`. -/
theorem C15_idle_message_no_calls {σ κ : Type} (env : Env) (w : World σ κ)
    (building room : Str) (device : Device) (connection : κ) (s s1 : σ) (data : Str)
    (hread : w.ReadString connection '>' s = ((data, none), s1))
    (hidle : ¬ HasMarker data ∨
      (¬ env.Interference <:+: ReplaceAllString data ∧
        ¬ env.Power <:+: ReplaceAllString data ∧
        ¬ env.Battery <:+: ReplaceAllString data)) :
    step env w building room (Phase.reading device connection) s =
      (([Action.ReadString connection '>'], Phase.reading device connection), s1) ∧
    callsOf (step env w building room (Phase.reading device connection) s).1.1 = [] := by
  have hnone : GetEventInfo env data (building ++ "-".toList ++ room) = ([], none) := by
    rcases hidle with h | ⟨hI, hP, hB⟩
    · rw [GetEventInfo_eq, if_pos ((FindString_eq_nil_iff data).2 h)]
    · have hc : GetEventType env (ReplaceAllString data) =
          .error ⟨"Couldn't generate event type".toList, "invalid".toList⟩ := by
        simp only [GetEventType, (Contains_eq_false_iff _ _).2 hI,
          (Contains_eq_false_iff _ _).2 hP, (Contains_eq_false_iff _ _).2 hB,
          Bool.false_eq_true, if_false]
      rw [GetEventInfo_eq, hc]
      split <;> rfl
  have hstep : step env w building room (Phase.reading device connection) s =
      (([Action.ReadString connection '>'], Phase.reading device connection), s1) := by
    rw [step_reading_ok env w building room device connection s s1 data hread]
    simp only [handleMessage, hnone]
    rfl
  exact ⟨hstep, by rw [hstep]; rfl⟩

/-- C15 (amended) in the sample world at the heartbeat `REP 1 HEARTBEAT OK>`. -/
theorem C15_idle_message_no_calls_witness :
    callsOf (step (sampleEnv (stubFill "minutes".toList "45".toList none)) sampleWorld
      "BLDG".toList "101".toList (Phase.reading ⟨"RX1".toList, "10.0.0.5".toList⟩ 0)
      ⟨[], ⟨"REP 1 HEARTBEAT OK>".toList, "EOF".toList⟩⟩).1.1 = [] :=
  (C15_idle_message_no_calls (sampleEnv (stubFill "minutes".toList "45".toList none)) sampleWorld
    "BLDG".toList "101".toList ⟨"RX1".toList, "10.0.0.5".toList⟩ 0
    ⟨[], ⟨"REP 1 HEARTBEAT OK>".toList, "EOF".toList⟩⟩ ⟨[], ⟨[], "EOF".toList⟩⟩
    "REP 1 HEARTBEAT OK>".toList (by decide)
    (Or.inr ⟨(Contains_eq_false_iff _ _).1 (by decide), (Contains_eq_false_iff _ _).1 (by decide),
      (Contains_eq_false_iff _ _).1 (by decide)⟩)).2

/-- C16: in the read loop every step ends at the head of the loop again, on the
same device and connection, whatever the read, `GetEventInfo` and the publisher
answered; so after any number of rounds `Monitor` is still in the loop and has
not dialled. A failed read leads to exactly one `ReportError` and nothing
else. -/
theorem C16_read_loop_never_ends {σ κ : Type} (env : Env) (w : World σ κ)
    (building room : Str) (device : Device) (connection : κ) :
    (∀ s : σ, (step env w building room (Phase.reading device connection) s).1.2 =
      Phase.reading device connection) ∧
    (∀ (rounds : Nat) (s : σ),
      (run env w building room rounds (Phase.reading device connection) s).1.2 =
        Phase.reading device connection ∧
      dialCount (run env w building room rounds (Phase.reading device connection) s).1.1 = 0) ∧
    (∀ (s s1 : σ) (data text : Str),
      w.ReadString connection '>' s = ((data, some text), s1) →
      step env w building room (Phase.reading device connection) s =
        (([Action.ReadString connection '>',
            Action.publishing (Call.ReportError
              ("problem reading receiver string: ".toList ++ text) w.SYSTEM_ID building room)],
          Phase.reading device connection), s1)) := by
  refine ⟨fun s => (step_reading_phase env w building room device connection s).1, ?_,
    fun s s1 data text h => step_reading_error env w building room device connection s s1 data text h⟩
  intro rounds
  induction rounds with
  | zero => intro s; exact ⟨rfl, rfl⟩
  | succ n ih =>
    intro s
    have hs := step_reading_phase env w building room device connection s
    rw [run]
    simp only [hs.1, dialCount_append, hs.2, (ih _).1, (ih _).2, and_self]

/-- C17: for a message with a channel marker, the text handed to the classifier
and to the extractor is `ReplaceAllString data`, and that text is the message
with each of its markers deleted: cut the message from the left into texts free
of markers separated by markers, and put the texts together. Nothing else is
deleted or changed, and this description fits no other text. A stateful
extractor is called at most once, with exactly this text. -/
theorem C17_markers_removed_before_classification (env : Env) (data roomID : Str)
    (hm : HasMarker data) :
    Stripped data (ReplaceAllString data) ∧
    (∀ out, Stripped data out → out = ReplaceAllString data) ∧
    GetEventInfo env data roomID =
      (match GetEventType env (ReplaceAllString data) with
        | .error _ => ([], none)
        | .ok E =>
          outcome env (deviceNameOf data roomID)
            (env.FillEventInfo E (ReplaceAllString data)
              { TargetDevice := env.GenerateBasicDeviceInfo (deviceNameOf data roomID) })) ∧
    ∀ (σ : Type) (fill : Category → Str → Event → σ → (Event × Option NErr) × σ) (s : σ),
      GetEventInfoS env fill data roomID s =
        (match GetEventType env (ReplaceAllString data) with
          | .error _ => (([], none), s)
          | .ok E =>
            (outcome env (deviceNameOf data roomID)
                (fill E (ReplaceAllString data)
                  { TargetDevice := env.GenerateBasicDeviceInfo (deviceNameOf data roomID) } s).1,
              (fill E (ReplaceAllString data)
                { TargetDevice := env.GenerateBasicDeviceInfo (deviceNameOf data roomID) } s).2)) := by
  have h0 : FindString data ≠ [] := FindString_ne_nil_of_HasMarker hm
  refine ⟨Stripped_ReplaceAllString data, fun out h => Stripped_eq_ReplaceAllString h, ?_, ?_⟩
  · rw [GetEventInfo_eq, if_neg h0]
    rfl
  · intro σ fill s
    have hlen : ¬ (FindString data).length = 0 := by
      simpa [List.length_eq_zero] using h0
    unfold GetEventInfoS
    rw [if_neg hlen]
    rfl

/-- C17 at `xREP 1 BATT REP 2y>`: both markers are deleted, the rest is kept,
and the recording extractor has seen exactly that text. -/
theorem C17_markers_removed_before_classification_witness :
    ReplaceAllString "xREP 1 BATT REP 2y>".toList = "x BATT y>".toList ∧
    Stripped "xREP 1 BATT REP 2y>".toList "x BATT y>".toList ∧
    (GetEventInfoS (sampleEnv (stubFill [] [] none)) recordingFill
      "xREP 1 BATT REP 2y>".toList "BLDG-101".toList []).2 = ["x BATT y>".toList] :=
  have h := C17_markers_removed_before_classification (sampleEnv (stubFill [] [] none))
    "xREP 1 BATT REP 2y>".toList "BLDG-101".toList
    ⟨'1', by decide, "x".toList, " BATT REP 2y>".toList, by decide⟩
  have he : ReplaceAllString "xREP 1 BATT REP 2y>".toList = "x BATT y>".toList := by decide
  ⟨he, he ▸ h.1, by decide⟩

/-- C18: `GetEventInfo` returns a non-nil error exactly when the message carries
a channel marker, is classified, the extractor returned an error and the
primary event is not suppressed; the result is then the one-element sequence
holding the primary event, together with the extractor's error, whatever the
Key and the Value are. The returned sequence never has more than two events. -/
theorem C18_error_iff_unsuppressed_extractor_error (env : Env) (data roomID : Str) :
    ((GetEventInfo env data roomID).2 ≠ none ↔
      HasMarker data ∧ ∃ E, GetEventType env (ReplaceAllString data) = .ok E ∧
        (extract env E data roomID).2 ≠ none ∧ ¬ Suppressed env (extract env E data roomID).1) ∧
    ((GetEventInfo env data roomID).2 ≠ none →
      ∃ E, GetEventType env (ReplaceAllString data) = .ok E ∧
        GetEventInfo env data roomID =
          ([(extract env E data roomID).1], (extract env E data roomID).2)) ∧
    (GetEventInfo env data roomID).1.length ≤ 2 := by
  rw [GetEventInfo_eq]
  by_cases h0 : FindString data = []
  · have hm : ¬ HasMarker data := (FindString_eq_nil_iff data).1 h0
    rw [if_pos h0]
    simp [hm]
  · have hm : HasMarker data := by
      by_contra hm
      exact h0 ((FindString_eq_nil_iff data).2 hm)
    rw [if_neg h0]
    cases hc : GetEventType env (ReplaceAllString data) with
    | error e => simp
    | ok E =>
      simp only [hm, true_and, Except.ok.injEq, exists_eq_left']
      by_cases hs : Suppressed env (extract env E data roomID).1
      · rw [outcome_of_suppressed env _ _ hs]
        simp [hs]
      · rw [outcome_of_not_suppressed env _ _ hs]
        cases he : (extract env E data roomID).2 with
        | some e => simp [hs]
        | none =>
          simp only [Option.isSome_none, Bool.false_eq_true, if_false]
          split_ifs
          · split <;> simp
          · simp

/-- C18 at `REP 1 BATT 45 minutes>` with an extractor that sets the key
`minutes`, the value `45` and returns an error: the error is returned with the
primary event alone, and no derived event. -/
theorem C18_error_iff_unsuppressed_extractor_error_witness :
    GetEventInfo
      (sampleEnv (stubFill "minutes".toList "45".toList (some ⟨"odd".toList, "invalid".toList⟩)))
      "REP 1 BATT 45 minutes>".toList "BLDG-101".toList =
      ([{ Key := "minutes".toList, Value := "45".toList,
          TargetDevice := { DeviceID := "BLDG-101-MIC1".toList } }],
        some ⟨"odd".toList, "invalid".toList⟩) ∧
    (GetEventInfo
      (sampleEnv (stubFill "minutes".toList "45".toList (some ⟨"odd".toList, "invalid".toList⟩)))
      "REP 1 BATT 45 minutes>".toList "BLDG-101".toList).1.length ≤ 2 :=
  ⟨by decide,
    (C18_error_iff_unsuppressed_extractor_error
      (sampleEnv (stubFill "minutes".toList "45".toList (some ⟨"odd".toList, "invalid".toList⟩)))
      "REP 1 BATT 45 minutes>".toList "BLDG-101".toList).2.2⟩

/-- C19: the returned sequence holds a derived hours:minutes event, that is, a
second event besides the primary one, exactly when the message carries a
channel marker, is classified, the extractor returned no error, the primary
event is not suppressed, its Key contains `minutes` somewhere and its Value is
a base-10 integer with optional sign that fits the machine integer. The derived
event then comes from the parsed number `n`, its Value is `H:M` with
`H = n / 60` and `M = n % 60` (truncating), and for `n` not negative
`60 * H + M = n` and `0 ≤ M < 60`. -/
theorem C19_derived_event_iff (env : Env) (data roomID : Str) :
    ((GetEventInfo env data roomID).1.length = 2 ↔
      HasMarker data ∧ ∃ E, GetEventType env (ReplaceAllString data) = .ok E ∧
        (extract env E data roomID).2 = none ∧
        ¬ Suppressed env (extract env E data roomID).1 ∧
        "minutes".toList <:+: (extract env E data roomID).1.Key ∧
        ∃ n, ParsesAsInt env.intSize (extract env E data roomID).1.Value n) ∧
    (∀ a b : Event, (GetEventInfo env data roomID).1 = [a, b] →
      ∃ n : Int, ParsesAsInt env.intSize b.Value n ∧
        a = hoursMinuteEventOf env (deviceNameOf data roomID) n ∧
        a.Value = (toString (Int.tdiv n 60) ++ ":" ++ toString (Int.tmod n 60)).toList ∧
        (0 ≤ n → 60 * Int.tdiv n 60 + Int.tmod n 60 = n ∧ 0 ≤ Int.tmod n 60 ∧
          Int.tmod n 60 < 60)) := by
  refine ⟨⟨fun hlen => ?_, ?_⟩, fun a b h => ?_⟩
  · obtain ⟨a, b, hab⟩ : ∃ a b, (GetEventInfo env data roomID).1 = [a, b] := by
      match hl : (GetEventInfo env data roomID).1, hlen with
      | [a, b], _ => exact ⟨a, b, rfl⟩
    obtain ⟨hm, E, hc, _, he, hs, hk, n, hn, _⟩ := GetEventInfo_pair env data roomID a b hab
    exact ⟨hm, E, hc, he, hs, hk, n, (Atoi_eq_some_iff_ParsesAsInt _ _ _).1 hn⟩
  · rintro ⟨hm, E, hc, he, hs, hk, n, hn⟩
    rw [GetEventInfo_of_classified env data roomID E hm hc,
      outcome_of_not_suppressed env _ _ hs, he]
    simp only [Option.isSome_none, Bool.false_eq_true, if_false,
      (Contains_iff_occurs _ _).2 hk, if_true, (Atoi_eq_some_iff_ParsesAsInt _ _ _).2 hn]
    rfl
  · obtain ⟨_, E, _, hb, _, _, _, n, hn, ha⟩ := GetEventInfo_pair env data roomID a b h
    refine ⟨n, (Atoi_eq_some_iff_ParsesAsInt _ _ _).1 (by rw [hb]; exact hn), ha, ?_, fun h0 => ?_⟩
    · rw [ha]; exact hoursMinuteEventOf_Value env _ n
    · exact ⟨Int.tdiv_add_tmod n 60, Int.tmod_nonneg 60 h0, Int.tmod_lt_of_pos n (by decide)⟩

/-- C19 at `REP 1 BATT +125 minutes left>` with the key `minutes left` and the
value `+125`: a derived event `2:5` is returned before the primary one. -/
theorem C19_derived_event_iff_witness :
    (GetEventInfo (sampleEnv (stubFill "minutes left".toList "+125".toList none))
      "REP 1 BATT +125 minutes left>".toList "BLDG-101".toList).1.map (fun event => event.Value) =
      ["2:5".toList, "+125".toList] ∧
    ∃ n : Int, ParsesAsInt 64 "+125".toList n ∧
      ({ Key := "battery level (hours:minute remaining".toList
         Value := "2:5".toList
         TargetDevice := { DeviceID := "BLDG-101-MIC1".toList }
         EventTags := ["detail-state".toList, "auto-generated".toList] } : Event) =
        hoursMinuteEventOf (sampleEnv (stubFill "minutes left".toList "+125".toList none))
          (deviceNameOf "REP 1 BATT +125 minutes left>".toList "BLDG-101".toList) n :=
  ⟨by decide,
    ((C19_derived_event_iff (sampleEnv (stubFill "minutes left".toList "+125".toList none))
      "REP 1 BATT +125 minutes left>".toList "BLDG-101".toList).2
      { Key := "battery level (hours:minute remaining".toList
        Value := "2:5".toList
        TargetDevice := { DeviceID := "BLDG-101-MIC1".toList }
        EventTags := ["detail-state".toList, "auto-generated".toList] }
      { Key := "minutes left".toList
        Value := "+125".toList
        TargetDevice := { DeviceID := "BLDG-101-MIC1".toList } }
      (by decide)).imp (fun _ h => ⟨h.1, h.2.1⟩)⟩

end Reporting
